import Mathlib

/-!
Verification development for the WIKI security-scanner core: a shallow
embedding of the crawler (`server/web-crawler.ts`), the per-page scanner
(`server/scan-worker.cjs`), the progress machinery
(`websocket-server.ts` / `worker-pool.ts`) and the scan route
(`server/routes.ts`), with theorems settling the spec's claims.

Strings are modelled as `List Char` (`Str`); JavaScript string methods
(`includes`, `endsWith`, `toLowerCase`, `split`) are given executable
models below.  HTML parsing (cheerio) is treated as an external
collaborator: the parsed document is supplied by an oracle.  HTTP is an
oracle from requests to axios outcomes.
-/

namespace WikiScan

/-- JavaScript strings, modelled as lists of characters. -/
abbrev Str := List Char

/-- JavaScript `String.prototype.toLowerCase` (ASCII range, as used by the code). -/
def lowerStr (s : Str) : Str := s.map Char.toLower

/-- JavaScript `String.prototype.toUpperCase` (ASCII range). -/
def upperStr (s : Str) : Str := s.map Char.toUpper

/-- JavaScript `String.prototype.includes`: `pat` occurs as a contiguous
substring of `s`. -/
def strIncludes (s pat : Str) : Bool :=
  if pat.isPrefixOf s then true
  else
    match s with
    | [] => false
    | _ :: rest => strIncludes rest pat

/-- JavaScript `String.prototype.endsWith`. -/
def strEndsWith (s suffix : Str) : Bool := suffix.isSuffixOf s

/-- JavaScript `String.prototype.split(sep)` for a one-character separator:
auxiliary accumulator form. -/
def splitOnCharAux (c : Char) : Str → Str → List Str
  | [], acc => [acc.reverse]
  | x :: xs, acc =>
    if x = c then acc.reverse :: splitOnCharAux c xs []
    else splitOnCharAux c xs (x :: acc)

/-- JavaScript `String.prototype.split(sep)` for a one-character separator. -/
def splitOnChar (c : Char) (s : Str) : List Str := splitOnCharAux c s []

/-! ## URL model

A model of the WHATWG `URL` parser for absolute `http`/`https` URLs, the
subset the scanner's URLs exercise (no userinfo, ports or fragments are
modelled; relative references are resolved only for root-relative paths).
`new URL` lower-cases the scheme and host and defaults the path to `/`. -/

structure UrlObj where
  scheme : Str
  hostname : Str
  pathname : Str
  search : Str
deriving DecidableEq, Repr, Inhabited

/-- Model of `new URL(s)` for absolute http/https URLs: `none` models the
constructor throwing. -/
def parseUrl (s : Str) : Option UrlObj :=
  let low := lowerStr s
  let afterScheme? : Option (Str × Str) :=
    if "http://".data.isPrefixOf low then some ("http".data, s.drop 7)
    else if "https://".data.isPrefixOf low then some ("https".data, s.drop 8)
    else none
  match afterScheme? with
  | none => none
  | some (scheme, rest) =>
    let host := rest.takeWhile (fun c => c ≠ '/' && c ≠ '?' && c ≠ '#')
    if host.isEmpty then none
    else
      let tail := rest.drop host.length
      let pathname := tail.takeWhile (fun c => c ≠ '?' && c ≠ '#')
      let pathname := if pathname.isEmpty then "/".data else pathname
      let afterPath := (tail.dropWhile (fun c => c ≠ '?' && c ≠ '#'))
      let search :=
        match afterPath with
        | '?' :: q => q.takeWhile (fun c => c ≠ '#')
        | _ => []
      some { scheme := scheme, hostname := lowerStr host, pathname := pathname,
             search := search }

/-- Serialisation (`URL.href`) of the modelled URL object. -/
def urlHref (u : UrlObj) : Str :=
  u.scheme ++ "://".data ++ u.hostname ++ u.pathname ++
    (if u.search.isEmpty then [] else "?".data ++ u.search)

/-- Model of `new URL(ref, base).href`: absolute references are re-serialised,
root-relative references are resolved against the base's origin; other
relative forms are not exercised by the verified claims and are treated as
unresolvable (`none` models the constructor throwing). -/
def resolveUrl (ref base : Str) : Option Str :=
  match parseUrl ref with
  | some u => some (urlHref u)
  | none =>
    match parseUrl base with
    | none => none
    | some b =>
      match ref with
      | '/' :: _ =>
        let p := ref.takeWhile (fun c => c ≠ '?' && c ≠ '#')
        let afterPath := ref.dropWhile (fun c => c ≠ '?' && c ≠ '#')
        let q :=
          match afterPath with
          | '?' :: qq => qq.takeWhile (fun c => c ≠ '#')
          | _ => []
        some (urlHref { b with pathname := p, search := q })
      | _ => none

/-! ## Crawler (`server/web-crawler.ts`, `SmartWebCrawler`) -/

structure CrawlOptions where
  maxDepth : Nat
  maxPages : Nat
  sameDomainOnly : Bool
  includePatterns : List Str
  excludePatterns : List Str
  relevantKeywords : List Str

/-- The crawler's `defaultOptions` (web-crawler.ts lines 28-51). -/
def defaultOptions : CrawlOptions where
  maxDepth := 3
  maxPages := 20
  sameDomainOnly := false
  includePatterns :=
    ["dashboard".data, "admin".data, "settings".data, "profile".data, "account".data,
     "home".data, "index".data, "main".data, "login".data, "register".data,
     "users".data, "products".data, "services".data, "pages".data,
     "api".data, "v1".data, "v2".data, "endpoints".data]
  excludePatterns :=
    ["logout".data, "signout".data, "unsubscribe".data,
     "delete".data, "remove".data, "destroy".data,
     "cdn".data, "static".data, "assets".data, "images".data,
     "css".data, "js".data, "jpg".data, "png".data, "gif".data, "pdf".data, "zip".data,
     "facebook.com".data, "twitter.com".data, "linkedin.com".data,
     "google.com".data, "youtube.com".data, "instagram.com".data]
  relevantKeywords :=
    ["dashboard".data, "admin".data, "settings".data, "profile".data, "account".data,
     "user".data, "login".data, "register".data, "home".data, "main".data,
     "product".data, "service".data, "page".data, "content".data]

/-- Root domain of the crawl's base domain (web-crawler.ts lines 145-146):
the last two dot-separated labels, or the whole host if it has at most two. -/
def rootDomainOf (baseDomain : Str) : Str :=
  let parts := splitOnChar '.' baseDomain
  if parts.length > 2 then List.intercalate ".".data (parts.drop (parts.length - 2))
  else baseDomain

/-- The smart-mode host rule (web-crawler.ts line 155): the candidate hostname
must end with the characters of the root domain (`String.prototype.endsWith`,
no label-boundary check). -/
def hostRuleSmart (baseDomain hostname : Str) : Bool :=
  strEndsWith hostname (rootDomainOf baseDomain)

/-- The static-asset extension list (web-crawler.ts line 189). -/
def excludedExtensions : List Str :=
  [".css".data, ".js".data, ".jpg".data, ".png".data, ".gif".data,
   ".pdf".data, ".zip".data, ".svg".data, ".ico".data]

/-- `SmartWebCrawler.shouldCrawlUrl` (web-crawler.ts lines 124-200). -/
def shouldCrawlUrl (opts : CrawlOptions) (baseDomain : Str) (url : Str) : Bool :=
  match parseUrl url with
  | none => false
  | some urlObj =>
    if opts.sameDomainOnly && !(urlObj.hostname = baseDomain : Bool) then false
    else if !opts.sameDomainOnly && !hostRuleSmart baseDomain urlObj.hostname then false
    else if opts.excludePatterns.any
        (fun pat => strIncludes (lowerStr url) (lowerStr pat)) then false
    else if opts.includePatterns.length > 0 &&
        !(opts.includePatterns.any
            (fun pat => strIncludes (lowerStr url) (lowerStr pat))) &&
        !(opts.relevantKeywords.any
            (fun kw =>
              let path := lowerStr urlObj.pathname
              strIncludes path (lowerStr kw) || path = "/".data || path = [])) then false
    else if excludedExtensions.any
        (fun ext => strEndsWith (lowerStr urlObj.pathname) ext) then false
    else true

/-- A form as the crawler's `extractForms` returns it.  The cheerio parsing
itself is an external collaborator: the crawl oracle supplies these records. -/
structure FetchedForm where
  action : Str
  method : Str
  inputNames : List Str
deriving DecidableEq, Repr

/-- What one successful fetch-and-parse of a page yields: the title text, the
raw `<a href>` attribute values in document order, and the extracted forms. -/
structure FetchedDoc where
  title : Str
  hrefs : List Str
  forms : List FetchedForm
deriving Repr

/-- The crawl's fetch oracle: `none` models a fetch error (caught and
skipped by `crawlPage`). -/
abbrev CrawlOracle := Str → Option FetchedDoc

structure CrawledPage where
  url : Str
  title : Str
  links : List Str
  forms : List FetchedForm
  depth : Nat
deriving DecidableEq, Repr

structure CrawlState where
  visitedUrls : List Str
  crawledPages : List CrawledPage
deriving Repr

/-- `SmartWebCrawler.extractLinks` (web-crawler.ts lines 202-220): resolve
each href against the page URL, keep those in scope and unvisited, and
de-duplicate preserving first occurrence. -/
def extractLinks (opts : CrawlOptions) (baseDomain : Str) (visited : List Str)
    (hrefs : List Str) (baseUrl : Str) : List Str :=
  ((hrefs.filterMap (fun h => resolveUrl h baseUrl)).filter
      (fun abs => shouldCrawlUrl opts baseDomain abs && !visited.contains abs)).eraseDups

/-- `SmartWebCrawler.crawlPage` (web-crawler.ts lines 75-122).  The source
recurses on each discovered link in order ("breadth-first" only by its
comment); `fuel` bounds the recursion depth so the model is total. -/
def crawlPage (oracle : CrawlOracle) (opts : CrawlOptions) (baseDomain : Str) :
    Nat → Str → Nat → CrawlState → CrawlState
  | 0, _, _, st => st
  | fuel + 1, url, depth, st =>
    if depth > opts.maxDepth then st
    else if st.visitedUrls.contains url then st
    else if st.crawledPages.length ≥ opts.maxPages then st
    else if !shouldCrawlUrl opts baseDomain url then st
    else
      let st1 : CrawlState := { st with visitedUrls := st.visitedUrls ++ [url] }
      match oracle url with
      | none => st1
      | some doc =>
        let links := extractLinks opts baseDomain st1.visitedUrls doc.hrefs url
        let title := if doc.title.isEmpty then "No Title".data else doc.title
        let page : CrawledPage :=
          { url := url, title := title, links := links, forms := doc.forms, depth := depth }
        let st2 : CrawlState := { st1 with crawledPages := st1.crawledPages ++ [page] }
        links.foldl
          (fun acc link =>
            if acc.crawledPages.length < opts.maxPages && !acc.visitedUrls.contains link then
              crawlPage oracle opts baseDomain fuel link (depth + 1) acc
            else acc)
          st2

/-- `SmartWebCrawler.crawl` (web-crawler.ts lines 57-73): sets `baseDomain`
from the seed's hostname; a seed that does not parse makes `new URL` throw
and the catch block returns the (empty) result list. -/
def crawl (oracle : CrawlOracle) (opts : CrawlOptions) (fuel : Nat)
    (startUrl : Str) : List CrawledPage :=
  match parseUrl startUrl with
  | none => []
  | some u =>
    (crawlPage oracle opts u.hostname fuel startUrl 0 ⟨[], []⟩).crawledPages

/-! ## Per-page scanner (`server/scan-worker.cjs`) -/

/-- The XSS payload corpus (scan-worker.cjs lines 22-30). -/
def XSS_PAYLOADS : List Str :=
  ["<script>alert(\"XSS\")</script>".data,
   "\"><script>alert(\"XSS\")</script>".data,
   "<img src=x onerror=alert(\"XSS\")>".data,
   "javascript:alert(\"XSS\")".data,
   "<svg onload=alert(\"XSS\")>".data,
   "\"><img src=x onerror=alert(\"XSS\")>".data,
   "<iframe src=\"javascript:alert('XSS')\"></iframe>".data]

/-- The SQL-injection payload corpus (scan-worker.cjs lines 32-45). -/
def SQL_PAYLOADS : List Str :=
  ["' OR '1'='1".data,
   "' OR 1=1--".data,
   "'; DROP TABLE users;--".data,
   "' UNION SELECT null, null, null--".data,
   "admin'--".data,
   "admin' #".data,
   "admin'/*".data,
   "' or 1=1#".data,
   "' or 1=1--".data,
   "' or 1=1/*".data,
   "') or '1'='1--".data,
   "') or ('1'='1--".data]

/-- The database-error fingerprints (scan-worker.cjs lines 47-58). -/
def SQL_ERRORS : List Str :=
  ["mysql_fetch_array".data,
   "ORA-".data,
   "Microsoft OLE DB Provider".data,
   "PostgreSQL query failed".data,
   "Warning: mysql_".data,
   "SQL syntax".data,
   "mysql_error".data,
   "valid MySQL result".data,
   "MySqlClient".data,
   "syntax error".data]

/-- A response body: a string, or non-string content (JSON, binary) as axios
may deliver it. -/
inductive RespData where
  | str (s : Str)
  | nonString
deriving DecidableEq, Repr

/-- The part of an axios response the scanner reads: the status code, the
`server` header (if present) and the body. -/
structure Response where
  status : Nat
  server : Option Str
  data : RespData
deriving DecidableEq, Repr

/-- An HTTP request as the scanner issues it: URL, method and an optional
urlencoded body. -/
structure Request where
  url : Str
  method : Str
  body : Option Str
deriving DecidableEq, Repr

/-- What one axios call produces: a response from the target (any status), or
a network-level failure (timeout, DNS, TLS, connection) with no response. -/
inductive AxiosResult where
  | response (r : Response)
  | netError (msg : Str)
deriving DecidableEq, Repr

/-- The scanner's HTTP oracle. -/
abbrev Oracle := Request → AxiosResult

/-- `fetchPage` (scan-worker.cjs lines 60-81): `validateStatus: status < 500`
makes axios resolve for 1xx-4xx and reject for 5xx; the catch block returns
`err.response` whenever one is attached, so a received 5xx response is also
returned as a value.  Only a failure with no response throws. -/
def fetchPage (oracle : Oracle) (req : Request) : Except Str Response :=
  match oracle req with
  | .response r =>
    if r.status < 500 then .ok r          -- axios resolves (validateStatus)
    else .ok r                            -- axios rejects; `if (err.response) return err.response`
  | .netError msg => .error ("fetch error: ".data ++ msg)

/-- `containsPayload` (scan-worker.cjs lines 83-86): false for a missing,
empty or non-string body, otherwise a case-insensitive substring test. -/
def containsPayload (html : RespData) (payload : Str) : Bool :=
  match html with
  | .nonString => false
  | .str h => if h.isEmpty then false else strIncludes (lowerStr h) (lowerStr payload)

/-- `containsSQLError` (scan-worker.cjs lines 88-92). -/
def containsSQLError (html : RespData) : Bool :=
  match html with
  | .nonString => false
  | .str h =>
    if h.isEmpty then false
    else SQL_ERRORS.any (fun err => strIncludes (lowerStr h) (lowerStr err))

/-- A finding.  The source builds `id` from `Date.now()` and `Math.random()`;
only the static prefix is modelled. -/
structure Vuln where
  id : Str
  name : Str
  severity : Str
  description : Str
  location : Str
  impact : Str
  category : Str
deriving DecidableEq, Repr

/-- Tag of a form control as cheerio's selectors distinguish them. -/
inductive CtrlTag where
  | input
  | textarea
  | select
deriving DecidableEq, Repr

/-- A form control: tag, `type` attribute, `name` attribute. -/
structure Control where
  tag : CtrlTag
  ctype : Option Str
  cname : Option Str
deriving DecidableEq, Repr

/-- A `<form>` element as cheerio exposes it to `scanPage`. -/
structure FormEl where
  action : Option Str
  method : Option Str
  controls : List Control
deriving DecidableEq, Repr

/-- The parsed page: forms and the text of inline `<script>` elements, in
document order. -/
structure HtmlDoc where
  forms : List FormEl
  scripts : List Str
deriving Repr

/-- The cheerio parsing oracle (`cheerio.load` plus the selectors): an
external collaborator mapping the HTML text to its parsed document. -/
abbrev ParseDoc := Str → HtmlDoc

/-- Selector `input[type="hidden"][name*="csrf"], input[type="hidden"][name*="token"]`
(scan-worker.cjs line 139). -/
def isHiddenCsrfToken (c : Control) : Bool :=
  (match c.tag with | .input => true | _ => false) &&
  (c.ctype = some "hidden".data : Bool) &&
  (match c.cname with
   | some n => strIncludes n "csrf".data || strIncludes n "token".data
   | none => false)

/-- Selector `input[type="password"], input[name*="password"], input[name*="email"]`
(scan-worker.cjs line 140). -/
def isSensitiveInput (c : Control) : Bool :=
  (match c.tag with | .input => true | _ => false) &&
  ((c.ctype = some "password".data : Bool) ||
   (match c.cname with
    | some n => strIncludes n "password".data || strIncludes n "email".data
    | none => false))

/-- Selector `input:not([type="hidden"]), textarea` (scan-worker.cjs line 154):
the controls the fuzzing loops iterate over. -/
def isFuzzControl (c : Control) : Bool :=
  match c.tag with
  | .input => !(c.ctype = some "hidden".data : Bool)
  | .textarea => true
  | .select => false

/-- `(form.attr('method') || 'GET').toUpperCase()` (scan-worker.cjs line 128). -/
def formMethod (f : FormEl) : Str :=
  upperStr (match f.method with
            | some m => if m.isEmpty then "GET".data else m
            | none => "GET".data)

/-- Resolution of the form target (scan-worker.cjs lines 127, 131-136):
`action` defaults to the page URL when absent or empty, and a resolution
failure falls back to the page URL. -/
def formTarget (f : FormEl) (pageUrl : Str) : Str :=
  let action := match f.action with
                | some a => if a.isEmpty then pageUrl else a
                | none => pageUrl
  match resolveUrl action pageUrl with
  | some href => href
  | none => pageUrl

/-- The CSRF finding (scan-worker.cjs lines 142-150). -/
def csrfFinding (targetUrl : Str) : Vuln where
  id := "csrf-".data
  name := "Cross-Site Request Forgery (CSRF)".data
  severity := "Medium".data
  description := "CSRF protection missing on sensitive form at ".data ++ targetUrl
  location := "POST ".data ++ targetUrl
  impact := "Attackers could perform actions on behalf of users.".data
  category := "CSRF".data

/-- The CSRF emission condition (scan-worker.cjs line 141). -/
def csrfPred (f : FormEl) : Bool :=
  (formMethod f = "POST".data : Bool) &&
  (f.controls.filter isSensitiveInput).length > 0 &&
  (f.controls.filter isHiddenCsrfToken).length = 0

/-- The CSRF check (scan-worker.cjs lines 139-151): purely structural, no
HTTP request. -/
def csrfCheck (f : FormEl) (pageUrl : Str) : List Vuln :=
  if csrfPred f then [csrfFinding (formTarget f pageUrl)] else []

/-- Output of one detector block: the findings it pushed, the number of
`endpointsTested` increments, and the HTTP requests it dispatched, in order. -/
structure DetOut where
  vulns : List Vuln
  endpoints : Nat
  log : List Request
deriving Repr

def DetOut.empty : DetOut := ⟨[], 0, []⟩

def DetOut.append (a b : DetOut) : DetOut :=
  ⟨a.vulns ++ b.vulns, a.endpoints + b.endpoints, a.log ++ b.log⟩

/-- Body construction for a fuzzed input (scan-worker.cjs lines 164-170 and
202-207): every *other* named fuzz control is set to the filler, then the
fuzzed input is appended with the payload. -/
def fuzzParams (controls : List Control) (name filler payload : Str) :
    List (Str × Str) :=
  (controls.filterMap (fun c =>
     match c.cname with
     | some n => if n.isEmpty || (n = name : Bool) then none else some (n, filler)
     | none => none)) ++ [(name, payload)]

/-- Hexadecimal digit (upper case), for percent-encoding. -/
def hexDigit (n : Nat) : Char :=
  if n < 10 then Char.ofNat ('0'.toNat + n) else Char.ofNat ('A'.toNat + n - 10)

/-- One character of `application/x-www-form-urlencoded` serialisation
(`URLSearchParams.toString`); code points above 255 do not occur in the
scanner's payloads and are encoded by their low byte. -/
def encodeChar (c : Char) : Str :=
  if c.isAlphanum || c = '*' || c = '-' || c = '.' || c = '_' then [c]
  else if c = ' ' then ['+']
  else ['%', hexDigit (c.toNat % 256 / 16), hexDigit (c.toNat % 16)]

def encodeStr (s : Str) : Str := (s.map encodeChar).flatten

/-- `URLSearchParams.toString()`. -/
def encodeParams (ps : List (Str × Str)) : Str :=
  List.intercalate "&".data (ps.map (fun p => encodeStr p.1 ++ "=".data ++ encodeStr p.2))

/-- The probe request for a fuzzed form submission (scan-worker.cjs lines
172-181 and 209-218): POST sends the urlencoded body, GET appends it as the
query string. -/
def probeRequest (method targetUrl : Str) (ps : List (Str × Str)) : Request :=
  if (method = "POST".data : Bool) then
    { url := targetUrl, method := "POST".data, body := some (encodeParams ps) }
  else
    { url := targetUrl ++ "?".data ++ encodeParams ps, method := "GET".data, body := none }

/-- The reflected-XSS form finding (scan-worker.cjs lines 184-192). -/
def xssFinding (name method targetUrl : Str) : Vuln where
  id := "xss-".data
  name := "Reflected XSS".data
  severity := "High".data
  description := "Reflected XSS in form input \"".data ++ name ++ "\"".data
  location := method ++ " ".data ++ targetUrl
  impact := "Malicious scripts execution.".data
  category := "XSS".data

/-- The SQL-injection form finding (scan-worker.cjs lines 221-229). -/
def sqliFinding (name method targetUrl : Str) : Vuln where
  id := "sqli-".data
  name := "SQL Injection".data
  severity := "Critical".data
  description := "SQL Injection in form input \"".data ++ name ++ "\"".data
  location := method ++ " ".data ++ targetUrl
  impact := "Database compromise.".data
  category := "SQL Injection".data

/-- The per-input XSS payload loop (scan-worker.cjs lines 161-196):
`endpointsTested` is incremented per attempt (fetch failures included), the
filler is `"test"`, and the loop breaks at the first payload whose probe
response echoes it. -/
def xssLoop (oracle : Oracle) (controls : List Control)
    (name method targetUrl : Str) : List Str → DetOut
  | [] => .empty
  | payload :: rest =>
    let req := probeRequest method targetUrl (fuzzParams controls name "test".data payload)
    match fetchPage oracle req with
    | .error _ =>
      let out := xssLoop oracle controls name method targetUrl rest
      ⟨out.vulns, out.endpoints + 1, req :: out.log⟩
    | .ok res =>
      if containsPayload res.data payload then
        ⟨[xssFinding name method targetUrl], 1, [req]⟩
      else
        let out := xssLoop oracle controls name method targetUrl rest
        ⟨out.vulns, out.endpoints + 1, req :: out.log⟩

/-- The per-input SQL-injection payload loop (scan-worker.cjs lines 199-233):
same shape as the XSS loop with filler `"1"` and the error-fingerprint
signal. -/
def sqliLoop (oracle : Oracle) (controls : List Control)
    (name method targetUrl : Str) : List Str → DetOut
  | [] => .empty
  | payload :: rest =>
    let req := probeRequest method targetUrl (fuzzParams controls name "1".data payload)
    match fetchPage oracle req with
    | .error _ =>
      let out := sqliLoop oracle controls name method targetUrl rest
      ⟨out.vulns, out.endpoints + 1, req :: out.log⟩
    | .ok res =>
      if containsSQLError res.data then
        ⟨[sqliFinding name method targetUrl], 1, [req]⟩
      else
        let out := sqliLoop oracle controls name method targetUrl rest
        ⟨out.vulns, out.endpoints + 1, req :: out.log⟩

/-- One fuzzed input (scan-worker.cjs lines 155-234): skipped when unnamed,
otherwise the XSS loop runs, then the SQLi loop. -/
def inputScan (oracle : Oracle) (controls : List Control)
    (method targetUrl : Str) (c : Control) : DetOut :=
  match c.cname with
  | none => .empty
  | some name =>
    if name.isEmpty then .empty
    else
      (xssLoop oracle controls name method targetUrl XSS_PAYLOADS).append
        (sqliLoop oracle controls name method targetUrl SQL_PAYLOADS)

/-- The loop over a form's fuzz controls, in document order. -/
def inputsScan (oracle : Oracle) (controls : List Control)
    (method targetUrl : Str) : List Control → DetOut
  | [] => .empty
  | c :: cs =>
    (inputScan oracle controls method targetUrl c).append
      (inputsScan oracle controls method targetUrl cs)

/-- One form (scan-worker.cjs lines 125-235): the CSRF check first, then the
fuzzing loops over `input:not([type="hidden"]), textarea`. -/
def formScan (oracle : Oracle) (pageUrl : Str) (f : FormEl) : DetOut :=
  let targetUrl := formTarget f pageUrl
  let method := formMethod f
  let fuzz := f.controls.filter isFuzzControl
  (DetOut.mk (csrfCheck f pageUrl) 0 []).append
    (inputsScan oracle fuzz method targetUrl fuzz)

/-- The loop over all forms of the page. -/
def formsScan (oracle : Oracle) (pageUrl : Str) : List FormEl → DetOut
  | [] => .empty
  | f :: fs => (formScan oracle pageUrl f).append (formsScan oracle pageUrl fs)

/-- Query-string parsing (`URLSearchParams` iteration): `&`-separated
`name=value` pairs, empty segments skipped; percent-decoding of names is not
exercised by the verified claims and is not modelled. -/
def parseQuery (q : Str) : List (Str × Str) :=
  (splitOnChar '&' q).filterMap (fun seg =>
    if seg.isEmpty then none
    else some (seg.takeWhile (fun c => c ≠ '='),
               (seg.dropWhile (fun c => c ≠ '=')).drop 1))

/-- `url.searchParams.set(name, value)` followed by serialisation: every pair
with that name is replaced by a single pair at the first occurrence's
position (appended if absent), and the URL is re-serialised. -/
def setParam (u : UrlObj) (name value : Str) : Str :=
  let ps := parseQuery u.search
  let rec replace : List (Str × Str) → Bool → List (Str × Str)
    | [], found => if found then [] else [(name, value)]
    | p :: rest, found =>
      if (p.1 = name : Bool) then
        if found then replace rest true else (name, value) :: replace rest true
      else p :: replace rest found
  urlHref { u with search := [] } ++ "?".data ++ encodeParams (replace ps false)

/-- The reflected-XSS URL finding (scan-worker.cjs lines 249-257). -/
def urlXssFinding (param testUrl : Str) : Vuln where
  id := "url-xss-".data
  name := "Reflected XSS (URL)".data
  severity := "High".data
  description := "Reflected XSS in URL parameter \"".data ++ param ++ "\"".data
  location := "GET ".data ++ testUrl
  impact := "Malicious scripts execution.".data
  category := "XSS".data

/-- The SQL-injection URL finding (scan-worker.cjs lines 269-277). -/
def urlSqliFinding (param testUrl : Str) : Vuln where
  id := "url-sqli-".data
  name := "SQL Injection (URL)".data
  severity := "Critical".data
  description := "SQL Injection in URL parameter \"".data ++ param ++ "\"".data
  location := "GET ".data ++ testUrl
  impact := "Database compromise.".data
  category := "SQL Injection".data

/-- One URL parameter (scan-worker.cjs lines 240-280): an XSS probe with the
canonical payload, then an SQLi probe with a single quote; each increments
`endpointsTested` before its fetch, and fetch failures are swallowed. -/
def urlParamScan (oracle : Oracle) (u : UrlObj) (param : Str) : DetOut :=
  let xssPayload := "<script>alert(\"XSS\")</script>".data
  let testUrlXss := setParam u param xssPayload
  let reqXss : Request := { url := testUrlXss, method := "GET".data, body := none }
  let xssOut : DetOut :=
    match fetchPage oracle reqXss with
    | .error _ => ⟨[], 1, [reqXss]⟩
    | .ok res =>
      if containsPayload res.data xssPayload then
        ⟨[urlXssFinding param testUrlXss], 1, [reqXss]⟩
      else ⟨[], 1, [reqXss]⟩
  let sqliPayload := "'".data
  let testUrlSql := setParam u param sqliPayload
  let reqSql : Request := { url := testUrlSql, method := "GET".data, body := none }
  let sqlOut : DetOut :=
    match fetchPage oracle reqSql with
    | .error _ => ⟨[], 1, [reqSql]⟩
    | .ok res =>
      if containsSQLError res.data then
        ⟨[urlSqliFinding param testUrlSql], 1, [reqSql]⟩
      else ⟨[], 1, [reqSql]⟩
  xssOut.append sqlOut

/-- The loop over the page URL's query parameter names. -/
def urlParamsScan (oracle : Oracle) (u : UrlObj) : List Str → DetOut
  | [] => .empty
  | p :: ps => (urlParamScan oracle u p).append (urlParamsScan oracle u ps)

/-- Section 2 of `scanPage` (lines 237-281): skipped entirely when the page
URL does not parse (the catch around the block). -/
def urlScan (oracle : Oracle) (pageUrl : Str) : DetOut :=
  match parseUrl pageUrl with
  | none => .empty
  | some u => urlParamsScan oracle u ((parseQuery u.search).map (fun p => p.1))

/-- The DOM-XSS finding (scan-worker.cjs lines 288-296). -/
def domFinding (pageUrl : Str) : Vuln where
  id := "dom-xss-".data
  name := "Potential DOM XSS".data
  severity := "High".data
  description := "Dangerous DOM sink usage (innerHTML/document.write)".data
  location := pageUrl
  impact := "Client-side code execution.".data
  category := "XSS".data

/-- The DOM-sink pass (scan-worker.cjs lines 285-298): one finding per inline
script whose text contains `innerHTML` or `document.write` (case-sensitive). -/
def domVulns (pageUrl : Str) (scripts : List Str) : List Vuln :=
  scripts.filterMap (fun s =>
    if strIncludes s "innerHTML".data || strIncludes s "document.write".data then
      some (domFinding pageUrl)
    else none)

/-- The server-header finding (scan-worker.cjs lines 301-311). -/
def serverFinding (v : Str) : Vuln where
  id := "info-".data
  name := "Server Header Disclosure".data
  severity := "Low".data
  description := "Server header exposed: ".data ++ v
  location := "HTTP Headers".data
  impact := "Information leakage.".data
  category := "Information Disclosure".data

/-- The server-header check: `if (response.headers['server'])` — an absent or
empty header emits nothing. -/
def serverVulns (r : Response) : List Vuln :=
  match r.server with
  | some v => if v.isEmpty then [] else [serverFinding v]
  | none => []

/-- The database-error-disclosure finding (scan-worker.cjs lines 313-323). -/
def dbFinding (pageUrl : Str) : Vuln where
  id := "info-sqler-".data
  name := "Database Error Disclosure".data
  severity := "Medium".data
  description := "Database error messages exposed on page".data
  location := pageUrl
  impact := "Information leakage.".data
  category := "Information Disclosure".data

def dbVulns (pageUrl : Str) (html : Str) : List Vuln :=
  if containsSQLError (.str html) then [dbFinding pageUrl] else []

/-- The scan result record `result` built by `scanPage` (lines 101-106). -/
structure ScanData where
  vulnerabilities : List Vuln
  formsFound : Nat
  endpointsTested : Nat
  pageUrl : Str
deriving Repr

/-- The value `scanPage` resolves with (lines 112, 117, 325). -/
structure ScanOutcome where
  success : Bool
  error : Option Str
  data : ScanData
deriving Repr

def emptyScanData (pageUrl : Str) : ScanData :=
  { vulnerabilities := [], formsFound := 0, endpointsTested := 0, pageUrl := pageUrl }

/-- The initial page fetch request (scan-worker.cjs line 110). -/
def initReq (url : Str) : Request := { url := url, method := "GET".data, body := none }

/-- `scanPage` (scan-worker.cjs lines 100-326), paired with the ordered list
of HTTP requests it dispatched: the initial fetch; on a non-string body every
check is skipped; otherwise the form loops, the URL-parameter loops, and the
passive DOM-sink, server-header and database-error checks, in that order. -/
def scanPage (oracle : Oracle) (parseDoc : ParseDoc) (pageUrl : Str) :
    ScanOutcome × List Request :=
  let req0 := initReq pageUrl
  match fetchPage oracle req0 with
  | .error e =>
    ({ success := false, error := some e, data := emptyScanData pageUrl }, [req0])
  | .ok response =>
    match response.data with
    | .nonString =>
      ({ success := true, error := none, data := emptyScanData pageUrl }, [req0])
    | .str html =>
      let doc := parseDoc html
      let formsOut := formsScan oracle pageUrl doc.forms
      let urlOut := urlScan oracle pageUrl
      let vulns := formsOut.vulns ++ urlOut.vulns ++ domVulns pageUrl doc.scripts ++
        serverVulns response ++ dbVulns pageUrl html
      ({ success := true, error := none,
         data := { vulnerabilities := vulns, formsFound := doc.forms.length,
                   endpointsTested := formsOut.endpoints + urlOut.endpoints,
                   pageUrl := pageUrl } },
       req0 :: (formsOut.log ++ urlOut.log))

/-! ## Progress events (`websocket-server.ts` and `worker-pool.ts`) -/

/-- JavaScript `Math.round (num / den)` for nonnegative operands and
`den > 0`: round half up. -/
def jsRoundDiv (num den : Nat) : Nat := (2 * num + den) / (2 * den)

/-- The mutable `ScanProgress` record the WebSocket server keeps per scan
(websocket-server.ts lines 5-18).  `estimatedTimeRemaining`, `startTime` and
`currentStage` depend on wall-clock time and are not modelled. -/
structure ScanProgress where
  status : Str
  progress : Nat
  pagesScanned : Nat
  totalPages : Nat
  vulnerabilitiesFound : Nat
  formsFound : Nat
  endpointsTested : Nat
deriving DecidableEq, Repr, Inhabited

/-- `WebSocketServer.startScan` (lines 89-108): the route handler calls it
with `totalPages = 0`. -/
def startScan (totalPages : Nat) : ScanProgress where
  status := "crawling".data
  progress := 0
  pagesScanned := 0
  totalPages := totalPages
  vulnerabilitiesFound := 0
  formsFound := 0
  endpointsTested := 0

/-- `WebSocketServer.updateCrawlingProgress` (lines 110-122): the crawl phase
stores the pages-found count in the `pagesScanned` field and pins progress to
the crawl's 30% share. -/
def updateCrawlingProgress (p : ScanProgress) (pagesFound : Nat) : ScanProgress :=
  let total := max p.totalPages pagesFound
  { p with
    pagesScanned := pagesFound
    totalPages := total
    progress := jsRoundDiv (pagesFound * 30) (max total 1) }

/-- `WebSocketServer.updateScanningProgress` (lines 124-146). -/
def updateScanningProgress (p : ScanProgress)
    (pagesScanned vulnerabilitiesFound formsFound endpointsTested : Nat) : ScanProgress :=
  { p with
    pagesScanned := pagesScanned
    vulnerabilitiesFound := vulnerabilitiesFound
    formsFound := formsFound
    endpointsTested := endpointsTested
    progress := 30 + jsRoundDiv (pagesScanned * 70) (max p.totalPages 1)
    status := if pagesScanned ≥ p.totalPages then "completed".data else "scanning".data }

/-- The per-scan counters `WorkerPool` aggregates (worker-pool.ts lines
271-280). -/
structure PoolScanState where
  pagesScanned : Nat
  vulnerabilitiesFound : Nat
  formsFound : Nat
  endpointsTested : Nat
deriving DecidableEq, Repr

/-- One worker-result delta: the page's vulnerability count, `formsFound` and
`endpointsTested`. -/
abbrev ResultDelta := Nat × Nat × Nat

/-- `WorkerPool.updateScanStats` (worker-pool.ts lines 235-246): pages
scanned is incremented and capped at `totalPages`; the other counters
accumulate the result's values. -/
def updateScanStats (totalPages : Nat) (st : PoolScanState) (d : ResultDelta) :
    PoolScanState where
  pagesScanned := min (st.pagesScanned + 1) totalPages
  vulnerabilitiesFound := st.vulnerabilitiesFound + d.1
  formsFound := st.formsFound + d.2.1
  endpointsTested := st.endpointsTested + d.2.2

/-- Crawl-phase events: the states broadcast by `updateCrawlingProgress` for
pagesFound = pf, pf+1, …, pf+n-1, together with the final state. -/
def crawlRun (s : ScanProgress) : Nat → Nat → ScanProgress × List ScanProgress
  | _, 0 => (s, [])
  | pf, n + 1 =>
    let s' := updateCrawlingProgress s pf
    let (fin, evs) := crawlRun s' (pf + 1) n
    (fin, s' :: evs)

/-- Scanning-phase events: one `updateScanningProgress` broadcast per worker
result, fed from `updateScanStats`. -/
def scanRun (totalPages : Nat) : ScanProgress → PoolScanState → List ResultDelta →
    List ScanProgress
  | _, _, [] => []
  | s, p, d :: ds =>
    let p' := updateScanStats totalPages p d
    let s' := updateScanningProgress s p'.pagesScanned p'.vulnerabilitiesFound
      p'.formsFound p'.endpointsTested
    s' :: scanRun totalPages s' p' ds

/-- Modelled from the spec: the scan driver (`vulnerability-scanner.ts`, not
present in the sources) starts the scan with `totalPages = 0`
(routes.ts line 32), broadcasts one crawl event per crawled page
(spec §4.4: "Emits a CrawlProgress event after each page") and one scanning
event per completed page task, with the counters aggregated by
`WorkerPool.updateScanStats` (spec §4.8).  `crawlCount` pages are found, then
the workers report the deltas `ds`. -/
def scanTrace (crawlCount : Nat) (ds : List ResultDelta) : List ScanProgress :=
  let s0 := startScan 0
  let (afterCrawl, crawlEvs) := crawlRun s0 1 crawlCount
  s0 :: (crawlEvs ++ scanRun crawlCount afterCrawl ⟨0, 0, 0, 0⟩ ds)

/-- Closed form of the crawl-phase event for `pagesFound = k` (starting from
`startScan 0`): the pages-found count is stored in `pagesScanned`. -/
def crawlSP (k : Nat) : ScanProgress where
  status := "crawling".data
  progress := jsRoundDiv (k * 30) (max k 1)
  pagesScanned := k
  totalPages := k
  vulnerabilitiesFound := 0
  formsFound := 0
  endpointsTested := 0

/-- Closed form of a scanning-phase event given the pool counters. -/
def scanSP (T : Nat) (p : PoolScanState) : ScanProgress where
  status := if p.pagesScanned ≥ T then "completed".data else "scanning".data
  progress := 30 + jsRoundDiv (p.pagesScanned * 70) (max T 1)
  pagesScanned := p.pagesScanned
  totalPages := T
  vulnerabilitiesFound := p.vulnerabilitiesFound
  formsFound := p.formsFound
  endpointsTested := p.endpointsTested

/-- The pool counters after a list of worker results. -/
def poolAfter (T : Nat) (ds : List ResultDelta) : PoolScanState :=
  ds.foldl (updateScanStats T) ⟨0, 0, 0, 0⟩

/-! ## Scan route (`server/routes.ts`) -/

/-- What `performVulnerabilityScan` returns to the background task. -/
structure RouteScanResult where
  vulnerabilities : List Vuln
  pagesScanned : Nat
deriving Repr

/-- The synthetic finding built when the scan throws (routes.ts lines 57-69). -/
def scanErrorVuln (url msg : Str) : Vuln where
  id := "scan-error".data
  name := "Scan Error".data
  severity := "Low".data
  description := "Unable to scan the target website: ".data ++ msg ++
    ". This could be due to network issues, the website being down, or the website blocking automated scanning.".data
  location := url
  impact := "No vulnerabilities could be detected due to scan failure. Manual testing may be required.".data
  category := "Information Disclosure".data

/-- `performVulnerabilityScan` (routes.ts lines 23-71): the scanner's outcome
is a parameter (`vulnerability-scanner.ts` is not among the sources; a
`CrawlFatal` seed failure surfaces as a thrown error per spec §7).  The catch
block converts any thrown error into a normal return carrying the synthetic
finding — it never rethrows. -/
def performVulnerabilityScan (url : Str) (outcome : Except Str RouteScanResult) :
    RouteScanResult :=
  match outcome with
  | .ok r => r
  | .error msg => { vulnerabilities := [scanErrorVuln url msg], pagesScanned := 0 }

/-- The background task of `POST /api/scans` (routes.ts lines 126-151): after
`performVulnerabilityScan` returns (it always does), the scan record is
updated with status `"completed"`; the in-memory storage update does not
throw, so the catch that would set `"failed"` is unreachable. -/
def scanBackgroundTask (url : Str) (outcome : Except Str RouteScanResult) :
    Str × RouteScanResult :=
  let result := performVulnerabilityScan url outcome
  ("completed".data, result)

/-! ## Claim C2: crawl bounds -/

/-- The crawl invariant: every result page is in scope and within the depth
bound, and the result list never exceeds `maxPages`. -/
def stInv (opts : CrawlOptions) (baseDomain : Str) (st : CrawlState) : Prop :=
  (∀ p ∈ st.crawledPages,
     shouldCrawlUrl opts baseDomain p.url = true ∧ p.depth ≤ opts.maxDepth) ∧
  st.crawledPages.length ≤ opts.maxPages

/-- `crawlPage` preserves the crawl invariant: the guards at its head check
scope, depth and the page budget before any page is appended. -/
theorem crawlPage_inv (oracle : CrawlOracle) (opts : CrawlOptions) (base : Str) :
    ∀ (fuel : Nat) (url : Str) (depth : Nat) (st : CrawlState),
      stInv opts base st → stInv opts base (crawlPage oracle opts base fuel url depth st) := by
  intro fuel
  induction fuel with
  | zero => intro url depth st h; exact h
  | succ n ih =>
    intro url depth st h
    rw [crawlPage]
    split
    · exact h
    split
    · exact h
    split
    · exact h
    split
    · exact h
    next h1 h2 h3 h4 =>
    cases horacle : oracle url with
    | none => exact h
    | some doc =>
      have hscope : shouldCrawlUrl opts base url = true := by
        simpa using h4
      have hdepth : depth ≤ opts.maxDepth := by omega
      have hlen : st.crawledPages.length < opts.maxPages := by omega
      have hst2 : stInv opts base
          { st with
            visitedUrls := st.visitedUrls ++ [url]
            crawledPages := st.crawledPages ++
              [{ url := url
                 title := if doc.title.isEmpty then "No Title".data else doc.title
                 links := extractLinks opts base (st.visitedUrls ++ [url]) doc.hrefs url
                 forms := doc.forms
                 depth := depth }] } := by
        constructor
        · intro p hp
          rcases List.mem_append.mp hp with hp | hp
          · exact h.1 p hp
          · rcases List.mem_singleton.mp hp with rfl
            exact ⟨hscope, hdepth⟩
        · simpa using hlen
      have haux : ∀ (links : List Str) (st' : CrawlState), stInv opts base st' →
          stInv opts base (links.foldl
            (fun acc link =>
              if acc.crawledPages.length < opts.maxPages && !acc.visitedUrls.contains link then
                crawlPage oracle opts base n link (depth + 1) acc
              else acc) st') := by
        intro links
        induction links with
        | nil => intro st' h'; exact h'
        | cons l ls ihl =>
          intro st' h'
          rw [List.foldl_cons]
          apply ihl
          split
          · exact ih l (depth + 1) st' h'
          · exact h'
      exact haux _ _ hst2

/-- C2: every page the crawler returns passes the scope predicate with
respect to the seed's hostname and respects the depth bound; the result list
never exceeds `maxPages`; with `maxPages = 0` the crawler returns `[]`. -/
theorem c2_crawl_bounds :
    ∀ (oracle : CrawlOracle) (opts : CrawlOptions) (fuel : Nat) (startUrl : Str),
      (crawl oracle opts fuel startUrl).length ≤ opts.maxPages ∧
      (∀ u, parseUrl startUrl = some u →
        ∀ p ∈ crawl oracle opts fuel startUrl,
          shouldCrawlUrl opts u.hostname p.url = true ∧ p.depth ≤ opts.maxDepth) ∧
      (opts.maxPages = 0 → crawl oracle opts fuel startUrl = []) := by
  intro oracle opts fuel startUrl
  cases hp : parseUrl startUrl with
  | none => simp [crawl, hp]
  | some u =>
    have hinv := crawlPage_inv oracle opts u.hostname fuel startUrl 0 ⟨[], []⟩
      ⟨fun p hp => absurd hp (List.not_mem_nil p), Nat.zero_le _⟩
    have hcrawl : crawl oracle opts fuel startUrl =
        (crawlPage oracle opts u.hostname fuel startUrl 0 ⟨[], []⟩).crawledPages := by
      rw [crawl, hp]
    refine ⟨?_, ?_, ?_⟩
    · rw [hcrawl]; exact hinv.2
    · intro u' hu' p hmem
      obtain rfl : u = u' := Option.some.inj hu'
      rw [hcrawl] at hmem
      exact hinv.1 p hmem
    · intro h0
      rw [hcrawl]
      have := hinv.2
      rw [h0] at this
      exact List.eq_nil_of_length_eq_zero (Nat.le_zero.mp this)

/-- A concrete crawl for the C2 witness: the seed page with no outgoing
links. -/
def c2Oracle : CrawlOracle := fun _ => some ⟨"T".data, [], []⟩

def c2Page : CrawledPage :=
  { url := "http://home.example.com/".data, title := "T".data, links := [],
    forms := [], depth := 0 }

/-- Witness for C2: the single crawled page of a one-page site is in scope
and within the depth bound. -/
theorem c2_witness :
    shouldCrawlUrl defaultOptions "home.example.com".data c2Page.url = true ∧
    c2Page.depth ≤ defaultOptions.maxDepth :=
  (c2_crawl_bounds c2Oracle defaultOptions 2 "http://home.example.com/".data).2.1
    ⟨"http".data, "home.example.com".data, "/".data, []⟩ (by decide) c2Page (by decide)

/-! ## Claim C3: crawl order -/

/-- A concrete in-scope link graph: the seed links to pages A and B, and A
links to C.  All URLs pass the default scope policy. -/
def c3Oracle : CrawlOracle := fun url =>
  if url = "http://home.example.com/".data then
    some ⟨"T".data, ["http://a.example.com/main".data, "http://b.example.com/login".data], []⟩
  else if url = "http://a.example.com/main".data then
    some ⟨"A".data, ["http://c.example.com/admin".data], []⟩
  else
    some ⟨"X".data, [], []⟩

/-- C3: the crawler does not output pages in breadth-first order.  On the
graph `seed → [A, B]`, `A → [C]` the recursive `crawlPage` loop (its comment
notwithstanding) visits depth-first: the depth-2 page C appears before the
depth-1 page B. -/
theorem c3_dfs_order :
    ((crawl c3Oracle defaultOptions 6 "http://home.example.com/".data).map
        (fun p => (p.url, p.depth))) =
      [("http://home.example.com/".data, 0),
       ("http://a.example.com/main".data, 1),
       ("http://c.example.com/admin".data, 2),
       ("http://b.example.com/login".data, 1)] := by
  decide

/-! ## Claim C4: the scope policy's host rule -/

/-- C4 as stated: the host rule accepts a candidate only at a DNS label
boundary (equal to the root, or ending in "." plus the root). -/
def c4Claim : Prop :=
  ∀ base host : Str, hostRuleSmart base host = true →
    host = rootDomainOf base ∨ strEndsWith host (".".data ++ rootDomainOf base) = true

/-- C4 counterexample: the code's `hostname.endsWith(rootDomain)` has no
label-boundary check: for seed host `vulnweb.com` the candidate host
`evilvulnweb.com` passes the host rule — and the full scope predicate —
although it is neither the root nor a `.`-separated subdomain of it. -/
theorem c4_counterexample :
    hostRuleSmart "vulnweb.com".data "evilvulnweb.com".data = true ∧
    shouldCrawlUrl defaultOptions "vulnweb.com".data "http://evilvulnweb.com/".data = true ∧
    ¬("evilvulnweb.com".data = rootDomainOf "vulnweb.com".data) ∧
    strEndsWith "evilvulnweb.com".data (".".data ++ rootDomainOf "vulnweb.com".data) = false := by
  decide

/-- C4 amended: the host rule accepts a candidate exactly when its hostname
ends with the *characters* of the root domain (plain string suffix, no label
boundary): every URL the smart-mode scope predicate accepts has such a
hostname, and every label-boundary match (the claim's rule) is accepted. -/
theorem c4_amended :
    (∀ (opts : CrawlOptions) (base url : Str) (u : UrlObj),
       opts.sameDomainOnly = false → parseUrl url = some u →
       shouldCrawlUrl opts base url = true →
       strEndsWith u.hostname (rootDomainOf base) = true) ∧
    (∀ base host : Str,
       (host = rootDomainOf base ∨ strEndsWith host (".".data ++ rootDomainOf base) = true) →
       hostRuleSmart base host = true) := by
  constructor
  · intro opts base url u hsame hu hacc
    by_cases hb : hostRuleSmart base u.hostname = true
    · exact hb
    · exfalso
      rw [shouldCrawlUrl, hu] at hacc
      simp only [hsame, Bool.false_and, Bool.not_false, Bool.true_and, Bool.false_eq_true,
        if_false, eq_self_iff_true] at hacc
      rw [Bool.not_eq_true] at hb
      simp [hb] at hacc
  · intro base host h
    rw [hostRuleSmart, strEndsWith, List.isSuffixOf_iff_suffix]
    rcases h with h | h
    · exact h ▸ List.suffix_refl _
    · rw [strEndsWith, List.isSuffixOf_iff_suffix] at h
      exact (List.suffix_cons '.' (rootDomainOf base)).trans h

/-! ## Claim C5: the HTTP fetch primitive -/

/-- Any received response is returned as a success by `fetchPage` (both
branches of `validateStatus` end in the response value). -/
theorem fetchPage_ok (oracle : Oracle) (req : Request) (r : Response)
    (h : oracle req = .response r) : fetchPage oracle req = .ok r := by
  simp only [fetchPage, h]
  split <;> rfl

/-- A network-level failure is the one way `fetchPage` throws. -/
theorem fetchPage_err (oracle : Oracle) (req : Request) (msg : Str)
    (h : oracle req = .netError msg) :
    fetchPage oracle req = .error ("fetch error: ".data ++ msg) := by
  simp only [fetchPage, h]

/-- C5 as stated: every response `fetchPage` returns as a success has a
status below 500. -/
def c5Claim : Prop :=
  ∀ (oracle : Oracle) (req : Request) (r : Response),
    fetchPage oracle req = Except.ok r → r.status < 500

/-- C5 counterexample: a received 500 response is returned as a normal value
(`if (err.response) return err.response`), so `fetchPage` does not fail
exactly on 5xx. -/
theorem c5_counterexample : ¬c5Claim := by
  intro h
  have h500 := h (fun _ => .response ⟨500, none, .nonString⟩) (initReq [])
    ⟨500, none, .nonString⟩ rfl
  exact absurd h500 (by decide)

/-- C5 amended: `fetchPage` returns every received response — any status,
5xx included — as a success value, and fails exactly on network-level
errors (timeout, DNS, TLS, connection), with the error message prefixed
`fetch error: `. -/
theorem c5_amended :
    ∀ (oracle : Oracle) (req : Request),
      (∀ r, oracle req = .response r → fetchPage oracle req = .ok r) ∧
      (∀ msg, oracle req = .netError msg →
        fetchPage oracle req = .error ("fetch error: ".data ++ msg)) := by
  intro oracle req
  exact ⟨fun r h => fetchPage_ok oracle req r h, fun msg h => fetchPage_err oracle req msg h⟩

/-! ## Detector structure lemmas (shared by C6, C7, C8) -/

theorem DetOut.append_vulns (a b : DetOut) : (a.append b).vulns = a.vulns ++ b.vulns := rfl

theorem DetOut.append_log (a b : DetOut) : (a.append b).log = a.log ++ b.log := rfl

/-- The XSS payload loop emits at most one finding, and every emitted finding
is the canonical one, confirmed by a probe whose response echoed the
payload. -/
theorem xssLoop_spec (oracle : Oracle) (controls : List Control)
    (name method target : Str) :
    ∀ ps : List Str,
      (xssLoop oracle controls name method target ps).vulns.length ≤ 1 ∧
      ∀ v ∈ (xssLoop oracle controls name method target ps).vulns,
        v = xssFinding name method target ∧
        ∃ payload ∈ ps, ∃ res : Response,
          fetchPage oracle (probeRequest method target
            (fuzzParams controls name "test".data payload)) = Except.ok res ∧
          containsPayload res.data payload = true := by
  intro ps
  induction ps with
  | nil => exact ⟨by simp [xssLoop, DetOut.empty], by simp [xssLoop, DetOut.empty]⟩
  | cons payload rest ih =>
    rw [xssLoop]
    cases hf : fetchPage oracle (probeRequest method target
        (fuzzParams controls name "test".data payload)) with
    | error e =>
      refine ⟨by simpa using ih.1, ?_⟩
      intro v hv
      obtain ⟨hveq, p, hp, res, hres, hecho⟩ := ih.2 v (by simpa using hv)
      exact ⟨hveq, p, List.mem_cons_of_mem _ hp, res, hres, hecho⟩
    | ok res =>
      by_cases hecho : containsPayload res.data payload = true
      · simp only [hecho, if_true]
        refine ⟨by simp, ?_⟩
        intro v hv
        rw [List.mem_singleton.mp hv]
        exact ⟨rfl, payload, List.mem_cons_self _ _, res, hf, hecho⟩
      · simp only [hecho, if_false]
        refine ⟨by simpa using ih.1, ?_⟩
        intro v hv
        obtain ⟨hveq, p, hp, res', hres, hecho'⟩ := ih.2 v (by simpa using hv)
        exact ⟨hveq, p, List.mem_cons_of_mem _ hp, res', hres, hecho'⟩

/-- The SQLi payload loop: same shape with the error-fingerprint signal. -/
theorem sqliLoop_spec (oracle : Oracle) (controls : List Control)
    (name method target : Str) :
    ∀ ps : List Str,
      (sqliLoop oracle controls name method target ps).vulns.length ≤ 1 ∧
      ∀ v ∈ (sqliLoop oracle controls name method target ps).vulns,
        v = sqliFinding name method target ∧
        ∃ payload ∈ ps, ∃ res : Response,
          fetchPage oracle (probeRequest method target
            (fuzzParams controls name "1".data payload)) = Except.ok res ∧
          containsSQLError res.data = true := by
  intro ps
  induction ps with
  | nil => exact ⟨by simp [sqliLoop, DetOut.empty], by simp [sqliLoop, DetOut.empty]⟩
  | cons payload rest ih =>
    rw [sqliLoop]
    cases hf : fetchPage oracle (probeRequest method target
        (fuzzParams controls name "1".data payload)) with
    | error e =>
      refine ⟨by simpa using ih.1, ?_⟩
      intro v hv
      obtain ⟨hveq, p, hp, res, hres, herr⟩ := ih.2 v (by simpa using hv)
      exact ⟨hveq, p, List.mem_cons_of_mem _ hp, res, hres, herr⟩
    | ok res =>
      by_cases herr : containsSQLError res.data = true
      · simp only [herr, if_true]
        refine ⟨by simp, ?_⟩
        intro v hv
        rw [List.mem_singleton.mp hv]
        exact ⟨rfl, payload, List.mem_cons_self _ _, res, hf, herr⟩
      · simp only [herr, if_false]
        refine ⟨by simpa using ih.1, ?_⟩
        intro v hv
        obtain ⟨hveq, p, hp, res', hres, herr'⟩ := ih.2 v (by simpa using hv)
        exact ⟨hveq, p, List.mem_cons_of_mem _ hp, res', hres, herr'⟩

/-- Every finding of one input's fuzzing comes from its XSS loop or its SQLi
loop, and the input had a non-empty name. -/
theorem inputScan_mem (oracle : Oracle) (controls : List Control)
    (method target : Str) (c : Control) (v : Vuln)
    (h : v ∈ (inputScan oracle controls method target c).vulns) :
    ∃ name, c.cname = some name ∧
      (v ∈ (xssLoop oracle controls name method target XSS_PAYLOADS).vulns ∨
       v ∈ (sqliLoop oracle controls name method target SQL_PAYLOADS).vulns) := by
  cases hc : c.cname with
  | none => simp [inputScan, hc, DetOut.empty] at h
  | some name =>
    simp only [inputScan, hc] at h
    by_cases he : name.isEmpty
    · simp [he, DetOut.empty] at h
    · simp only [he, if_false, Bool.false_eq_true, DetOut.append_vulns] at h
      exact ⟨name, rfl, List.mem_append.mp h⟩

theorem inputsScan_mem (oracle : Oracle) (controls : List Control)
    (method target : Str) :
    ∀ (cs : List Control) (v : Vuln),
      v ∈ (inputsScan oracle controls method target cs).vulns →
      ∃ c ∈ cs, v ∈ (inputScan oracle controls method target c).vulns := by
  intro cs
  induction cs with
  | nil => intro v hv; simp [inputsScan, DetOut.empty] at hv
  | cons c cs ih =>
    intro v hv
    rw [inputsScan, DetOut.append_vulns] at hv
    rcases List.mem_append.mp hv with hv | hv
    · exact ⟨c, List.mem_cons_self _ _, hv⟩
    · obtain ⟨c', hc', hvc⟩ := ih v hv
      exact ⟨c', List.mem_cons_of_mem _ hc', hvc⟩

theorem formScan_vulns (oracle : Oracle) (pageUrl : Str) (f : FormEl) :
    (formScan oracle pageUrl f).vulns =
      csrfCheck f pageUrl ++
        (inputsScan oracle (f.controls.filter isFuzzControl) (formMethod f)
          (formTarget f pageUrl) (f.controls.filter isFuzzControl)).vulns := rfl

/-- The per-form request log is exactly the fuzzing loops' log: the CSRF
check contributes no HTTP request. -/
theorem formScan_log (oracle : Oracle) (pageUrl : Str) (f : FormEl) :
    (formScan oracle pageUrl f).log =
      (inputsScan oracle (f.controls.filter isFuzzControl) (formMethod f)
        (formTarget f pageUrl) (f.controls.filter isFuzzControl)).log := rfl

theorem formsScan_mem (oracle : Oracle) (pageUrl : Str) :
    ∀ (fs : List FormEl) (v : Vuln),
      v ∈ (formsScan oracle pageUrl fs).vulns →
      ∃ f ∈ fs, v ∈ (formScan oracle pageUrl f).vulns := by
  intro fs
  induction fs with
  | nil => intro v hv; simp [formsScan, DetOut.empty] at hv
  | cons f fs ih =>
    intro v hv
    rw [formsScan, DetOut.append_vulns] at hv
    rcases List.mem_append.mp hv with hv | hv
    · exact ⟨f, List.mem_cons_self _ _, hv⟩
    · obtain ⟨f', hf', hvf⟩ := ih v hv
      exact ⟨f', List.mem_cons_of_mem _ hf', hvf⟩

theorem csrfCheck_mem (f : FormEl) (pageUrl : Str) (v : Vuln)
    (h : v ∈ csrfCheck f pageUrl) :
    v = csrfFinding (formTarget f pageUrl) ∧ csrfPred f = true := by
  rw [csrfCheck] at h
  split at h
  · exact ⟨List.mem_singleton.mp h, by assumption⟩
  · exact absurd h (List.not_mem_nil v)

/-- Every finding of a form's fuzzing loops is named `Reflected XSS` or
`SQL Injection`. -/
theorem inputsScan_names (oracle : Oracle) (controls : List Control)
    (method target : Str) (cs : List Control) (v : Vuln)
    (h : v ∈ (inputsScan oracle controls method target cs).vulns) :
    v.name = "Reflected XSS".data ∨ v.name = "SQL Injection".data := by
  obtain ⟨c, _, hvc⟩ := inputsScan_mem oracle controls method target cs v h
  obtain ⟨name, _, hv | hv⟩ := inputScan_mem oracle controls method target c v hvc
  · exact Or.inl (((xssLoop_spec oracle controls name method target
      XSS_PAYLOADS).2 v hv).1 ▸ rfl)
  · exact Or.inr (((sqliLoop_spec oracle controls name method target
      SQL_PAYLOADS).2 v hv).1 ▸ rfl)

theorem urlParamScan_names (oracle : Oracle) (u : UrlObj) (p : Str) (v : Vuln)
    (h : v ∈ (urlParamScan oracle u p).vulns) :
    v.name = "Reflected XSS (URL)".data ∨ v.name = "SQL Injection (URL)".data := by
  simp only [urlParamScan, DetOut.append_vulns] at h
  rcases List.mem_append.mp h with h | h
  · left
    split at h
    · exact absurd h (List.not_mem_nil v)
    · split at h
      · rw [List.mem_singleton.mp h]; rfl
      · exact absurd h (List.not_mem_nil v)
  · right
    split at h
    · exact absurd h (List.not_mem_nil v)
    · split at h
      · rw [List.mem_singleton.mp h]; rfl
      · exact absurd h (List.not_mem_nil v)

theorem urlParamsScan_mem (oracle : Oracle) (u : UrlObj) :
    ∀ (ps : List Str) (v : Vuln),
      v ∈ (urlParamsScan oracle u ps).vulns →
      ∃ p ∈ ps, v ∈ (urlParamScan oracle u p).vulns := by
  intro ps
  induction ps with
  | nil => intro v hv; simp [urlParamsScan, DetOut.empty] at hv
  | cons p ps ih =>
    intro v hv
    rw [urlParamsScan, DetOut.append_vulns] at hv
    rcases List.mem_append.mp hv with hv | hv
    · exact ⟨p, List.mem_cons_self _ _, hv⟩
    · obtain ⟨p', hp', hvp⟩ := ih v hv
      exact ⟨p', List.mem_cons_of_mem _ hp', hvp⟩

theorem urlScan_names (oracle : Oracle) (pageUrl : Str) (v : Vuln)
    (h : v ∈ (urlScan oracle pageUrl).vulns) :
    v.name = "Reflected XSS (URL)".data ∨ v.name = "SQL Injection (URL)".data := by
  rw [urlScan] at h
  split at h
  · simp [DetOut.empty] at h
  · obtain ⟨p, _, hvp⟩ := urlParamsScan_mem oracle _ _ v h
    exact urlParamScan_names oracle _ p v hvp

theorem domVulns_mem (pageUrl : Str) (scripts : List Str) (v : Vuln)
    (h : v ∈ domVulns pageUrl scripts) : v = domFinding pageUrl := by
  rw [domVulns] at h
  obtain ⟨s, _, hv⟩ := List.mem_filterMap.mp h
  split at hv
  · exact (Option.some.inj hv).symm
  · exact absurd hv (by simp)

theorem serverVulns_mem (r : Response) (v : Vuln) (h : v ∈ serverVulns r) :
    ∃ s, v = serverFinding s := by
  rw [serverVulns] at h
  split at h
  · split at h
    · exact absurd h (List.not_mem_nil v)
    · exact ⟨_, List.mem_singleton.mp h⟩
  · exact absurd h (List.not_mem_nil v)

theorem dbVulns_mem (pageUrl html : Str) (v : Vuln) (h : v ∈ dbVulns pageUrl html) :
    v = dbFinding pageUrl := by
  rw [dbVulns] at h
  split at h
  · exact List.mem_singleton.mp h
  · exact absurd h (List.not_mem_nil v)

/-- On a successful HTML fetch, `scanPage`'s findings list is the
concatenation of the form loops, the URL-parameter loops, the DOM pass, the
server-header check and the body-fingerprint check, in that order. -/
theorem scanPage_vulns_eq (oracle : Oracle) (parseDoc : ParseDoc) (pageUrl : Str)
    (r : Response) (html : Str)
    (hr : oracle (initReq pageUrl) = .response r) (hd : r.data = .str html) :
    (scanPage oracle parseDoc pageUrl).1.data.vulnerabilities =
      (formsScan oracle pageUrl (parseDoc html).forms).vulns ++
        (urlScan oracle pageUrl).vulns ++
        domVulns pageUrl (parseDoc html).scripts ++
        serverVulns r ++ dbVulns pageUrl html := by
  simp only [scanPage, fetchPage_ok oracle (initReq pageUrl) r hr, hd]

/-! ## Claim C7: the CSRF heuristic -/

/-- The emission condition of the CSRF check, spelled out: POST method, at
least one sensitive input, and no hidden csrf/token input. -/
theorem csrfPred_iff (f : FormEl) :
    csrfPred f = true ↔
      (formMethod f = "POST".data ∧
       (∃ c ∈ f.controls, isSensitiveInput c = true) ∧
       (∀ c ∈ f.controls, isHiddenCsrfToken c = false)) := by
  rw [csrfPred]
  simp only [Bool.and_eq_true, decide_eq_true_eq]
  constructor
  · rintro ⟨⟨hm, hs⟩, hc⟩
    refine ⟨hm, ?_, ?_⟩
    · obtain ⟨c, hc'⟩ := List.exists_mem_of_length_pos hs
      exact ⟨c, (List.mem_filter.mp hc').1, (List.mem_filter.mp hc').2⟩
    · intro c hcmem
      by_contra hne
      rw [Bool.not_eq_false] at hne
      have : c ∈ f.controls.filter isHiddenCsrfToken := List.mem_filter.mpr ⟨hcmem, hne⟩
      rw [List.length_eq_zero] at hc
      simp [hc] at this
  · rintro ⟨hm, ⟨c, hcmem, hcs⟩, hnone⟩
    refine ⟨⟨hm, ?_⟩, ?_⟩
    · exact List.length_pos.mpr (fun hnil => by
        have : c ∈ f.controls.filter isSensitiveInput := List.mem_filter.mpr ⟨hcmem, hcs⟩
        simp [hnil] at this)
    · rw [List.length_eq_zero, List.filter_eq_nil_iff]
      intro a ha
      simp [hnone a ha]

/-- The CSRF findings of the form loop are exactly one finding per form
satisfying the emission condition, in form order. -/
theorem formsScan_filter_csrf (oracle : Oracle) (pageUrl : Str) :
    ∀ fs : List FormEl,
      ((formsScan oracle pageUrl fs).vulns.filter
          (fun v => v.name == "Cross-Site Request Forgery (CSRF)".data)) =
        (fs.filter csrfPred).map (fun f => csrfFinding (formTarget f pageUrl)) := by
  intro fs
  induction fs with
  | nil => rfl
  | cons f fs ih =>
    rw [formsScan, DetOut.append_vulns, List.filter_append, formScan_vulns,
      List.filter_append, ih, List.filter_cons]
    have hinputs : ((inputsScan oracle (f.controls.filter isFuzzControl) (formMethod f)
        (formTarget f pageUrl) (f.controls.filter isFuzzControl)).vulns.filter
          (fun v => v.name == "Cross-Site Request Forgery (CSRF)".data)) = [] := by
      rw [List.filter_eq_nil_iff]
      intro v hv
      rcases inputsScan_names oracle _ _ _ _ v hv with h | h <;> (rw [h]; decide)
    rw [hinputs]
    cases hcp : csrfPred f with
    | true =>
      rw [csrfCheck, hcp, if_pos rfl]
      simp only [List.filter_cons]
      rfl
    | false =>
      rw [csrfCheck, hcp]
      simp only [Bool.false_eq_true, if_false, List.filter_nil, List.nil_append,
        List.append_nil]

/-- C7: on every scanned HTML page, the CSRF findings are exactly one
`Cross-Site Request Forgery (CSRF)` finding (severity Medium, category CSRF,
location `POST <action>`) per form whose method is POST, which has a
sensitive input, and which has no hidden csrf/token input; and the per-form
request log comes from the fuzzing loops alone — the CSRF check dispatches
no HTTP request. -/
theorem c7_csrf_iff (oracle : Oracle) (parseDoc : ParseDoc) (pageUrl : Str)
    (r : Response) (html : Str)
    (hr : oracle (initReq pageUrl) = .response r) (hd : r.data = .str html) :
    ((scanPage oracle parseDoc pageUrl).1.data.vulnerabilities.filter
        (fun v => v.name == "Cross-Site Request Forgery (CSRF)".data)) =
      ((parseDoc html).forms.filter csrfPred).map
        (fun f => csrfFinding (formTarget f pageUrl)) ∧
    (∀ f : FormEl, csrfPred f = true ↔
      (formMethod f = "POST".data ∧
       (∃ c ∈ f.controls, isSensitiveInput c = true) ∧
       (∀ c ∈ f.controls, isHiddenCsrfToken c = false))) ∧
    (∀ t : Str, (csrfFinding t).severity = "Medium".data ∧
      (csrfFinding t).category = "CSRF".data ∧
      (csrfFinding t).location = "POST ".data ++ t) ∧
    (∀ f : FormEl, (formScan oracle pageUrl f).log =
      (inputsScan oracle (f.controls.filter isFuzzControl) (formMethod f)
        (formTarget f pageUrl) (f.controls.filter isFuzzControl)).log) := by
  refine ⟨?_, csrfPred_iff, fun t => ⟨rfl, rfl, rfl⟩, fun f => formScan_log oracle pageUrl f⟩
  rw [scanPage_vulns_eq oracle parseDoc pageUrl r html hr hd,
    List.filter_append, List.filter_append, List.filter_append, List.filter_append]
  have hurl : ((urlScan oracle pageUrl).vulns.filter
      (fun v => v.name == "Cross-Site Request Forgery (CSRF)".data)) = [] := by
    rw [List.filter_eq_nil_iff]
    intro v hv
    rcases urlScan_names oracle pageUrl v hv with h | h <;> (rw [h]; decide)
  have hdom : ((domVulns pageUrl (parseDoc html).scripts).filter
      (fun v => v.name == "Cross-Site Request Forgery (CSRF)".data)) = [] := by
    rw [List.filter_eq_nil_iff]
    intro v hv
    rw [domVulns_mem pageUrl _ v hv]
    show ¬(("Potential DOM XSS".data == "Cross-Site Request Forgery (CSRF)".data) = true)
    decide
  have hsrv : ((serverVulns r).filter
      (fun v => v.name == "Cross-Site Request Forgery (CSRF)".data)) = [] := by
    rw [List.filter_eq_nil_iff]
    intro v hv
    obtain ⟨s, rfl⟩ := serverVulns_mem r v hv
    show ¬(("Server Header Disclosure".data == "Cross-Site Request Forgery (CSRF)".data) = true)
    decide
  have hdb : ((dbVulns pageUrl html).filter
      (fun v => v.name == "Cross-Site Request Forgery (CSRF)".data)) = [] := by
    rw [List.filter_eq_nil_iff]
    intro v hv
    rw [dbVulns_mem pageUrl html v hv]
    show ¬(("Database Error Disclosure".data == "Cross-Site Request Forgery (CSRF)".data) = true)
    decide
  rw [hurl, hdom, hsrv, hdb, List.append_nil, List.append_nil, List.append_nil,
    List.append_nil]
  exact formsScan_filter_csrf oracle pageUrl (parseDoc html).forms

/-- Concrete page for the C7 witness: one POST form with a password input
and no csrf token. -/
def c7PageUrl : Str := "http://t.example.com/login".data

def c7Html : Str := "F".data

def c7Form : FormEl :=
  { action := some "http://t.example.com/save".data, method := some "post".data,
    controls := [⟨.input, some "password".data, some "pw".data⟩] }

def c7Oracle : Oracle := fun req =>
  if req.url = c7PageUrl then .response ⟨200, none, .str c7Html⟩
  else .response ⟨200, none, .str "ok".data⟩

def c7ParseDoc : ParseDoc := fun h =>
  if h = c7Html then ⟨[c7Form], []⟩ else ⟨[], []⟩

/-- Witness for C7 at the concrete page. -/
theorem c7_witness :
    ((scanPage c7Oracle c7ParseDoc c7PageUrl).1.data.vulnerabilities.filter
        (fun v => v.name == "Cross-Site Request Forgery (CSRF)".data)) =
      ((c7ParseDoc c7Html).forms.filter csrfPred).map
        (fun f => csrfFinding (formTarget f c7PageUrl)) :=
  (c7_csrf_iff c7Oracle c7ParseDoc c7PageUrl ⟨200, none, .str c7Html⟩ c7Html rfl rfl).1

/-! ## Claim C6: reflected XSS on form inputs -/

/-- C6: every `Reflected XSS` finding of a page scan has severity High and
category XSS, is located at `<METHOD> <resolved action>` of one of the
page's forms, and is confirmed by a probe of that form whose response body
contains the payload case-insensitively; and each input's XSS loop stops at
the first confirming payload (at most one finding per input). -/
theorem c6_reflected_xss (oracle : Oracle) (parseDoc : ParseDoc) (pageUrl : Str) :
    (∀ (r : Response) (html : Str),
      oracle (initReq pageUrl) = .response r → r.data = .str html →
      ∀ v ∈ (scanPage oracle parseDoc pageUrl).1.data.vulnerabilities,
        v.name = "Reflected XSS".data →
        v.severity = "High".data ∧ v.category = "XSS".data ∧
        ∃ f ∈ (parseDoc html).forms, ∃ (name payload : Str) (res : Response),
          v = xssFinding name (formMethod f) (formTarget f pageUrl) ∧
          v.location = formMethod f ++ " ".data ++ formTarget f pageUrl ∧
          payload ∈ XSS_PAYLOADS ∧
          fetchPage oracle (probeRequest (formMethod f) (formTarget f pageUrl)
            (fuzzParams (f.controls.filter isFuzzControl) name "test".data payload)) =
              Except.ok res ∧
          containsPayload res.data payload = true) ∧
    (∀ (controls : List Control) (name method target : Str),
      (xssLoop oracle controls name method target XSS_PAYLOADS).vulns.length ≤ 1) := by
  constructor
  · intro r html hr hd v hv hname
    rw [scanPage_vulns_eq oracle parseDoc pageUrl r html hr hd] at hv
    rcases List.mem_append.mp hv with hv | hv
    rotate_left
    · rw [dbVulns_mem pageUrl html v hv] at hname
      have : "Database Error Disclosure".data = "Reflected XSS".data := hname
      exact absurd this (by decide)
    rcases List.mem_append.mp hv with hv | hv
    rotate_left
    · obtain ⟨s, rfl⟩ := serverVulns_mem r v hv
      have : "Server Header Disclosure".data = "Reflected XSS".data := hname
      exact absurd this (by decide)
    rcases List.mem_append.mp hv with hv | hv
    rotate_left
    · rw [domVulns_mem pageUrl _ v hv] at hname
      have : "Potential DOM XSS".data = "Reflected XSS".data := hname
      exact absurd this (by decide)
    rcases List.mem_append.mp hv with hv | hv
    rotate_left
    · rcases urlScan_names oracle pageUrl v hv with h | h <;>
        exact absurd (h.symm.trans hname) (by decide)
    obtain ⟨f, hf, hvf⟩ := formsScan_mem oracle pageUrl _ v hv
    rw [formScan_vulns] at hvf
    rcases List.mem_append.mp hvf with hvf | hvf
    · obtain ⟨rfl, -⟩ := csrfCheck_mem f pageUrl v hvf
      have : "Cross-Site Request Forgery (CSRF)".data = "Reflected XSS".data := hname
      exact absurd this (by decide)
    obtain ⟨c, hc, hvc⟩ := inputsScan_mem oracle _ _ _ _ v hvf
    obtain ⟨nm, hcname, hvl | hvl⟩ := inputScan_mem oracle _ _ _ c v hvc
    · obtain ⟨hveq, payload, hpl, res, hres, hecho⟩ :=
        (xssLoop_spec oracle _ nm (formMethod f) (formTarget f pageUrl) XSS_PAYLOADS).2 v hvl
      exact ⟨by rw [hveq]; rfl, by rw [hveq]; rfl, f, hf, nm, payload, res, hveq,
        by rw [hveq]; rfl, hpl, hres, hecho⟩
    · obtain ⟨hveq, -⟩ :=
        (sqliLoop_spec oracle _ nm (formMethod f) (formTarget f pageUrl) SQL_PAYLOADS).2 v hvl
      rw [hveq] at hname
      have : "SQL Injection".data = "Reflected XSS".data := hname
      exact absurd this (by decide)
  · intro controls name method target
    exact (xssLoop_spec oracle controls name method target XSS_PAYLOADS).1

/-- Concrete scenario shared by the C6 witness and the C8 counterexample:
a page with one GET form whose probes echo the payload, an inline script
with a DOM sink, and a `Server` header. -/
def cxPageUrl : Str := "http://t.example.com/page".data

def cxHtml : Str := "H".data

def cxForm : FormEl :=
  { action := some "http://t.example.com/s".data, method := none,
    controls := [⟨.input, none, some "q".data⟩] }

def cxDoc : HtmlDoc := { forms := [cxForm], scripts := ["x.innerHTML = y".data] }

def cxParseDoc : ParseDoc := fun h => if h = cxHtml then cxDoc else ⟨[], []⟩

def cxOracle : Oracle := fun req =>
  if req.url = cxPageUrl then .response ⟨200, some "nginx".data, .str cxHtml⟩
  else .response ⟨200, none, .str "<script>alert(\"XSS\")</script>".data⟩

/-- Witness for C6: the concrete page's `Reflected XSS` finding satisfies
the shape and reflection properties. -/
theorem c6_witness :
    (xssFinding "q".data "GET".data "http://t.example.com/s".data).severity =
      "High".data ∧
    (xssFinding "q".data "GET".data "http://t.example.com/s".data).category =
      "XSS".data ∧
    ∃ f ∈ (cxParseDoc cxHtml).forms, ∃ (name payload : Str) (res : Response),
      xssFinding "q".data "GET".data "http://t.example.com/s".data =
        xssFinding name (formMethod f) (formTarget f cxPageUrl) ∧
      (xssFinding "q".data "GET".data "http://t.example.com/s".data).location =
        formMethod f ++ " ".data ++ formTarget f cxPageUrl ∧
      payload ∈ XSS_PAYLOADS ∧
      fetchPage cxOracle (probeRequest (formMethod f) (formTarget f cxPageUrl)
        (fuzzParams (f.controls.filter isFuzzControl) name "test".data payload)) =
          Except.ok res ∧
      containsPayload res.data payload = true :=
  (c6_reflected_xss cxOracle cxParseDoc cxPageUrl).1
    ⟨200, some "nginx".data, .str cxHtml⟩ cxHtml rfl rfl
    (xssFinding "q".data "GET".data "http://t.example.com/s".data) (by decide) rfl

/-! ## Claim C8: detector ordering -/

/-- Findings of the detectors that the source runs at the very end of
`scanPage` (DOM sinks and the two information-disclosure checks). -/
def passiveTailName (v : Vuln) : Bool :=
  v.name == "Potential DOM XSS".data ||
  v.name == "Server Header Disclosure".data ||
  v.name == "Database Error Disclosure".data

/-- Names of the active (HTTP-probing) detectors D1-D4. -/
def isActiveDetectorName (n : Str) : Bool :=
  n == "Reflected XSS".data || n == "Reflected XSS (URL)".data ||
  n == "SQL Injection".data || n == "SQL Injection (URL)".data

/-- Names of the passive detectors D5-D7. -/
def isPassiveDetectorName (n : Str) : Bool :=
  n == "Cross-Site Request Forgery (CSRF)".data || n == "Potential DOM XSS".data ||
  n == "Server Header Disclosure".data || n == "Database Error Disclosure".data

/-- C8 counterexample: on the concrete page, the passive DOM-sink finding
(D6) and the server-header finding (D7) appear *after* the active
`Reflected XSS` finding (D1) — the passive detectors do not all run before
the active ones. -/
theorem c8_counterexample :
    ((scanPage cxOracle cxParseDoc cxPageUrl).1.data.vulnerabilities.map Vuln.name) =
      ["Reflected XSS".data, "Potential DOM XSS".data,
       "Server Header Disclosure".data] ∧
    isActiveDetectorName "Reflected XSS".data = true ∧
    isPassiveDetectorName "Potential DOM XSS".data = true ∧
    isPassiveDetectorName "Server Header Disclosure".data = true := by
  decide

/-- C8 amended: within each form the CSRF check (D5) runs before that form's
active loops, but the DOM-sink and information-disclosure detectors (D6, D7)
run after all active detectors: their findings always form a suffix of the
page's findings list. -/
theorem c8_amended (oracle : Oracle) (parseDoc : ParseDoc) (pageUrl : Str) :
    (∃ A B, (scanPage oracle parseDoc pageUrl).1.data.vulnerabilities = A ++ B ∧
      (∀ v ∈ A, passiveTailName v = false) ∧
      (∀ v ∈ B, passiveTailName v = true)) ∧
    (∀ f : FormEl, (formScan oracle pageUrl f).vulns =
      csrfCheck f pageUrl ++
        (inputsScan oracle (f.controls.filter isFuzzControl) (formMethod f)
          (formTarget f pageUrl) (f.controls.filter isFuzzControl)).vulns) ∧
    (∀ (controls : List Control) (method target : Str) (cs : List Control),
      ∀ v ∈ (inputsScan oracle controls method target cs).vulns,
        v.name = "Reflected XSS".data ∨ v.name = "SQL Injection".data) := by
  refine ⟨?_, fun f => formScan_vulns oracle pageUrl f,
    fun controls method target cs v hv => inputsScan_names oracle controls method target cs v hv⟩
  cases hf : oracle (initReq pageUrl) with
  | netError m =>
    refine ⟨[], [], ?_, ?_, ?_⟩
    · simp only [scanPage, fetchPage_err oracle (initReq pageUrl) m hf]
      rfl
    · intro v hv; exact absurd hv (List.not_mem_nil v)
    · intro v hv; exact absurd hv (List.not_mem_nil v)
  | response r =>
    cases hd : r.data with
    | nonString =>
      refine ⟨[], [], ?_, ?_, ?_⟩
      · simp only [scanPage, fetchPage_ok oracle (initReq pageUrl) r hf, hd]
        rfl
      · intro v hv; exact absurd hv (List.not_mem_nil v)
      · intro v hv; exact absurd hv (List.not_mem_nil v)
    | str html =>
      refine ⟨(formsScan oracle pageUrl (parseDoc html).forms).vulns ++
          (urlScan oracle pageUrl).vulns,
        domVulns pageUrl (parseDoc html).scripts ++ serverVulns r ++ dbVulns pageUrl html,
        ?_, ?_, ?_⟩
      · rw [scanPage_vulns_eq oracle parseDoc pageUrl r html hf hd]
        simp [List.append_assoc]
      · intro v hv
        rcases List.mem_append.mp hv with hv | hv
        · obtain ⟨f, _, hvf⟩ := formsScan_mem oracle pageUrl _ v hv
          rw [formScan_vulns] at hvf
          rcases List.mem_append.mp hvf with hvf | hvf
          · obtain ⟨rfl, -⟩ := csrfCheck_mem f pageUrl v hvf
            rfl
          · rcases inputsScan_names oracle _ _ _ _ v hvf with h | h <;>
              (rw [passiveTailName, h]; decide)
        · rcases urlScan_names oracle pageUrl v hv with h | h <;>
            (rw [passiveTailName, h]; decide)
      · intro v hv
        rcases List.mem_append.mp hv with hv | hv
        rotate_left
        · rw [dbVulns_mem pageUrl html v hv]; rfl
        rcases List.mem_append.mp hv with hv | hv
        · rw [domVulns_mem pageUrl _ v hv]; rfl
        · obtain ⟨s, rfl⟩ := serverVulns_mem r v hv; rfl

/-! ## Claim C9: seed fetch failure -/

/-- C9 as stated: when the scan throws (a `CrawlFatal` seed failure), the
persisted status becomes `failed`. -/
def c9Claim : Prop :=
  ∀ url msg : Str, (scanBackgroundTask url (Except.error msg)).1 = "failed".data

/-- C9 counterexample: the background task catches nothing from
`performVulnerabilityScan` (which swallows the error itself), so the scan is
persisted as `completed`, not `failed`. -/
theorem c9_counterexample : ¬c9Claim := by
  intro h
  exact absurd (h "http://x.example.com".data "connect ECONNREFUSED".data) (by decide)

/-- C9 amended: on a failed scan the persisted status is `completed`, and the
synthetic finding — severity `Low`, category `Information Disclosure`,
description starting "Unable to scan the target website" — is what gets
persisted as the scan's only vulnerability. -/
theorem c9_amended :
    ∀ url msg : Str,
      (scanBackgroundTask url (Except.error msg)).1 = "completed".data ∧
      (scanBackgroundTask url (Except.error msg)).2.vulnerabilities =
        [scanErrorVuln url msg] ∧
      (scanErrorVuln url msg).severity = "Low".data ∧
      (scanErrorVuln url msg).category = "Information Disclosure".data ∧
      "Unable to scan the target website".data.isPrefixOf
        (scanErrorVuln url msg).description = true := by
  intro url msg
  refine ⟨rfl, rfl, rfl, rfl, ?_⟩
  rw [List.isPrefixOf_iff_prefix]
  show "Unable to scan the target website".data <+:
    "Unable to scan the target website: ".data ++ msg ++ _
  have hsplit : "Unable to scan the target website: ".data =
      "Unable to scan the target website".data ++ ": ".data := by decide
  rw [hsplit, List.append_assoc, List.append_assoc]
  exact List.prefix_append _ _

/-! ## Claim C10: non-string response body -/

/-- C10: when the initial fetch delivers a non-string body, `scanPage`
succeeds with the empty result — no forms counted, no endpoints tested, no
finding, and no detector issues any further HTTP request (the request log is
exactly the initial fetch). -/
theorem c10_nonstring_skips_all :
    ∀ (oracle : Oracle) (parseDoc : ParseDoc) (pageUrl : Str) (r : Response),
      oracle (initReq pageUrl) = .response r → r.data = .nonString →
      scanPage oracle parseDoc pageUrl =
        ({ success := true, error := none, data := emptyScanData pageUrl },
         [initReq pageUrl]) := by
  intro oracle parseDoc pageUrl r h hd
  simp only [scanPage, fetchPage_ok oracle (initReq pageUrl) r h, hd]

/-! ## Claim C1: progress-event monotonicity -/

/-- One crawl update from a state with the crawl-phase shape produces the
closed-form event. -/
theorem updateCrawlingProgress_closed (s : ScanProgress) (pf : Nat)
    (ht : s.totalPages ≤ pf) (hv : s.vulnerabilitiesFound = 0)
    (hf : s.formsFound = 0) (he : s.endpointsTested = 0)
    (hs : s.status = "crawling".data) :
    updateCrawlingProgress s pf = crawlSP pf := by
  rcases s with ⟨st, pr, ps, tp, v, f, e⟩
  simp only at ht hv hf he hs
  subst hv hf he hs
  simp only [updateCrawlingProgress, crawlSP, Nat.max_eq_right ht]

/-- The crawl-phase events are the closed-form states for
`pagesFound = pf, pf+1, …`. -/
theorem crawlRun_snd (n : Nat) :
    ∀ (pf : Nat) (s : ScanProgress), s.totalPages ≤ pf →
      s.vulnerabilitiesFound = 0 → s.formsFound = 0 → s.endpointsTested = 0 →
      s.status = "crawling".data →
      (crawlRun s pf n).2 = (List.range n).map (fun i => crawlSP (pf + i)) := by
  induction n with
  | zero => intro pf s _ _ _ _ _; rfl
  | succ n ih =>
    intro pf s ht hv hf he hs
    rw [crawlRun]
    rw [updateCrawlingProgress_closed s pf ht hv hf he hs]
    have hrec := ih (pf + 1) (crawlSP pf) (by simp [crawlSP]) rfl rfl rfl rfl
    rcases hcr : crawlRun (crawlSP pf) (pf + 1) n with ⟨fin, evs⟩
    rw [hcr] at hrec
    replace hrec : evs = (List.range n).map (fun i => crawlSP (pf + 1 + i)) := hrec
    show crawlSP pf :: evs = _
    rw [hrec, List.range_succ_eq_map, List.map_cons, List.map_map]
    refine congrArg₂ List.cons (congrArg crawlSP (Nat.add_zero pf).symm) ?_
    refine List.map_congr_left (fun i _ => ?_)
    simp only [Function.comp_apply]
    exact congrArg crawlSP (by omega)

/-- The final state of a non-empty crawl run is the last closed-form event. -/
theorem crawlRun_fst (n : Nat) :
    ∀ (pf : Nat) (s : ScanProgress), s.totalPages ≤ pf →
      s.vulnerabilitiesFound = 0 → s.formsFound = 0 → s.endpointsTested = 0 →
      s.status = "crawling".data →
      (crawlRun s pf (n + 1)).1 = crawlSP (pf + n) := by
  induction n with
  | zero =>
    intro pf s ht hv hf he hs
    rw [crawlRun]
    show (crawlRun (updateCrawlingProgress s pf) (pf + 1) 0).1 = crawlSP (pf + 0)
    rw [crawlRun, updateCrawlingProgress_closed s pf ht hv hf he hs, Nat.add_zero]
  | succ n ih =>
    intro pf s ht hv hf he hs
    rw [crawlRun]
    show (crawlRun (updateCrawlingProgress s pf) (pf + 1) (n + 1)).1 = crawlSP (pf + (n + 1))
    rw [updateCrawlingProgress_closed s pf ht hv hf he hs,
      ih (pf + 1) (crawlSP pf) (by simp [crawlSP]) rfl rfl rfl rfl]
    ring_nf

/-- One scanning update from a state with `totalPages = T` produces the
closed-form event for the new pool counters. -/
theorem updateScanningProgress_closed (s : ScanProgress) (T : Nat)
    (p : PoolScanState) (ht : s.totalPages = T) :
    updateScanningProgress s p.pagesScanned p.vulnerabilitiesFound
      p.formsFound p.endpointsTested = scanSP T p := by
  rcases s with ⟨st, pr, ps, tp, v, f, e⟩
  simp only at ht
  subst ht
  rfl

/-- The scanning-phase events are the closed-form states of the successive
pool counters. -/
theorem scanRun_events (T : Nat) :
    ∀ (ds : List ResultDelta) (s : ScanProgress) (p : PoolScanState),
      s.totalPages = T →
      scanRun T s p ds =
        (List.range ds.length).map
          (fun i => scanSP T ((ds.take (i + 1)).foldl (updateScanStats T) p)) := by
  intro ds
  induction ds with
  | nil => intro s p _; rfl
  | cons d ds ih =>
    intro s p ht
    rw [scanRun]
    rw [updateScanningProgress_closed s T (updateScanStats T p d) ht]
    have hrec := ih (scanSP T (updateScanStats T p d)) (updateScanStats T p d) rfl
    rw [hrec, List.length_cons, List.range_succ_eq_map, List.map_cons, List.map_map]
    rfl

theorem scanTrace_eq (C : Nat) (ds : List ResultDelta) :
    scanTrace C ds =
      startScan 0 ::
        ((List.range C).map (fun i => crawlSP (1 + i)) ++
          (List.range ds.length).map (fun i => scanSP C (poolAfter C (ds.take (i + 1))))) := by
  rw [scanTrace]
  cases C with
  | zero =>
    rw [crawlRun]
    show startScan 0 :: ([] ++ scanRun 0 (startScan 0) ⟨0, 0, 0, 0⟩ ds) = _
    rw [scanRun_events 0 ds (startScan 0) ⟨0, 0, 0, 0⟩ rfl]
    rfl
  | succ n =>
    have hsnd := crawlRun_snd (n + 1) 1 (startScan 0) (by simp [startScan]) rfl rfl rfl rfl
    have hfst := crawlRun_fst n 1 (startScan 0) (by simp [startScan]) rfl rfl rfl rfl
    rcases hcr : crawlRun (startScan 0) 1 (n + 1) with ⟨fin, evs⟩
    rw [hcr] at hsnd hfst
    replace hsnd : evs = (List.range (n + 1)).map (fun i => crawlSP (1 + i)) := hsnd
    replace hfst : fin = crawlSP (1 + n) := hfst
    show startScan 0 :: (evs ++ scanRun (n + 1) fin ⟨0, 0, 0, 0⟩ ds) = _
    rw [hsnd, hfst,
      scanRun_events (n + 1) ds (crawlSP (1 + n)) ⟨0, 0, 0, 0⟩
        (by show 1 + n = n + 1; omega)]
    rfl

theorem scanTrace_length (C : Nat) (ds : List ResultDelta) :
    (scanTrace C ds).length = 1 + C + ds.length := by
  rw [scanTrace_eq]
  simp only [List.length_cons, List.length_append, List.length_map, List.length_range]
  omega

theorem scanTrace_getD_zero (C : Nat) (ds : List ResultDelta) :
    (scanTrace C ds).getD 0 default = startScan 0 := by
  rw [scanTrace_eq]; rfl

theorem scanTrace_getD_crawl (C : Nat) (ds : List ResultDelta) (k : Nat)
    (h1 : 1 ≤ k) (h2 : k ≤ C) :
    (scanTrace C ds).getD k default = crawlSP k := by
  rw [scanTrace_eq]
  obtain ⟨k', rfl⟩ : ∃ k', k = k' + 1 := ⟨k - 1, by omega⟩
  rw [List.getD_cons_succ]
  rw [List.getD_append _ _ _ _ (by simp only [List.length_map, List.length_range]; omega)]
  rw [List.getD_eq_getElem?_getD, List.getElem?_map,
    List.getElem?_range (by omega : k' < C)]
  simp only [Option.map_some', Option.getD_some]
  exact congrArg crawlSP (Nat.add_comm 1 k')

theorem scanTrace_getD_scan (C : Nat) (ds : List ResultDelta) (m : Nat)
    (h1 : 1 ≤ m) (h2 : m ≤ ds.length) :
    (scanTrace C ds).getD (C + m) default = scanSP C (poolAfter C (ds.take m)) := by
  rw [scanTrace_eq]
  obtain ⟨m', rfl⟩ : ∃ m', m = m' + 1 := ⟨m - 1, by omega⟩
  show (startScan 0 :: _).getD ((C + m') + 1) default = _
  rw [List.getD_cons_succ]
  rw [List.getD_append_right _ _ _ _
    (by simp only [List.length_map, List.length_range]; omega)]
  simp only [List.length_map, List.length_range]
  rw [show C + m' - C = m' from by omega]
  rw [List.getD_eq_getElem?_getD, List.getElem?_map,
    List.getElem?_range (by omega : m' < ds.length)]
  rfl

/-- One pool update never decreases a counter and keeps `pagesScanned` within
the cap. -/
theorem updateScanStats_le (T : Nat) (p : PoolScanState) (d : ResultDelta)
    (hp : p.pagesScanned ≤ T) :
    (p.pagesScanned ≤ (updateScanStats T p d).pagesScanned ∧
     p.vulnerabilitiesFound ≤ (updateScanStats T p d).vulnerabilitiesFound ∧
     p.formsFound ≤ (updateScanStats T p d).formsFound ∧
     p.endpointsTested ≤ (updateScanStats T p d).endpointsTested) ∧
    (updateScanStats T p d).pagesScanned ≤ T := by
  refine ⟨⟨?_, Nat.le_add_right _ _, Nat.le_add_right _ _, Nat.le_add_right _ _⟩, ?_⟩
  · exact Nat.le_min.mpr ⟨Nat.le_succ _, hp⟩
  · exact Nat.min_le_right _ _

/-- Pool counters are monotone along any result sequence, and the page count
stays within the cap. -/
theorem foldl_updateScanStats_le (T : Nat) :
    ∀ (l : List ResultDelta) (p : PoolScanState), p.pagesScanned ≤ T →
      (p.pagesScanned ≤ (l.foldl (updateScanStats T) p).pagesScanned ∧
       p.vulnerabilitiesFound ≤ (l.foldl (updateScanStats T) p).vulnerabilitiesFound ∧
       p.formsFound ≤ (l.foldl (updateScanStats T) p).formsFound ∧
       p.endpointsTested ≤ (l.foldl (updateScanStats T) p).endpointsTested) ∧
      (l.foldl (updateScanStats T) p).pagesScanned ≤ T := by
  intro l
  induction l with
  | nil => intro p hp; exact ⟨⟨le_refl _, le_refl _, le_refl _, le_refl _⟩, hp⟩
  | cons d l ih =>
    intro p hp
    rw [List.foldl_cons]
    obtain ⟨h1, hcap⟩ := updateScanStats_le T p d hp
    obtain ⟨h2, hcap'⟩ := ih (updateScanStats T p d) hcap
    exact ⟨⟨h1.1.trans h2.1, h1.2.1.trans h2.2.1, h1.2.2.1.trans h2.2.2.1,
      h1.2.2.2.trans h2.2.2.2⟩, hcap'⟩

/-- The pool counters after `m` results are below those after `m' ≥ m`
results, and the page count is within the cap. -/
theorem poolAfter_mono (T : Nat) (ds : List ResultDelta) (m m' : Nat) (h : m ≤ m') :
    ((poolAfter T (ds.take m)).pagesScanned ≤ (poolAfter T (ds.take m')).pagesScanned ∧
     (poolAfter T (ds.take m)).vulnerabilitiesFound ≤
       (poolAfter T (ds.take m')).vulnerabilitiesFound ∧
     (poolAfter T (ds.take m)).formsFound ≤ (poolAfter T (ds.take m')).formsFound ∧
     (poolAfter T (ds.take m)).endpointsTested ≤
       (poolAfter T (ds.take m')).endpointsTested) ∧
    (poolAfter T (ds.take m)).pagesScanned ≤ T := by
  have hcap : (poolAfter T (ds.take m)).pagesScanned ≤ T :=
    (foldl_updateScanStats_le T (ds.take m) ⟨0, 0, 0, 0⟩ (Nat.zero_le T)).2
  refine ⟨?_, hcap⟩
  have hsplit : ds.take m' = ds.take m ++ (ds.drop m).take (m' - m) := by
    rw [← List.take_add]
    congr 1
    omega
  rw [poolAfter, poolAfter, hsplit, List.foldl_append]
  exact (foldl_updateScanStats_le T ((ds.drop m).take (m' - m)) _ hcap).1

theorem jsRoundDiv_mono (a b d : Nat) (h : a ≤ b) : jsRoundDiv a d ≤ jsRoundDiv b d :=
  Nat.div_le_div_right (by omega)

/-- Each crawl-phase event pins the progress bar at 30%. -/
theorem crawlSP_progress (k : Nat) (h : 1 ≤ k) : (crawlSP k).progress = 30 := by
  show jsRoundDiv (k * 30) (max k 1) = 30
  rw [Nat.max_eq_left h, jsRoundDiv]
  rw [show 2 * (k * 30) + k = 2 * k * 30 + k from by ring]
  rw [Nat.mul_add_div (by omega)]
  rw [Nat.div_eq_of_lt (by omega)]

/-- C1 as stated: all four counters and the progress value are monotone along
the whole published event sequence. -/
def c1Claim : Prop :=
  ∀ (C : Nat) (ds : List ResultDelta) (i j : Nat),
    i ≤ j → j < (scanTrace C ds).length →
    ((scanTrace C ds).getD i default).pagesScanned ≤
      ((scanTrace C ds).getD j default).pagesScanned ∧
    ((scanTrace C ds).getD i default).vulnerabilitiesFound ≤
      ((scanTrace C ds).getD j default).vulnerabilitiesFound ∧
    ((scanTrace C ds).getD i default).formsFound ≤
      ((scanTrace C ds).getD j default).formsFound ∧
    ((scanTrace C ds).getD i default).endpointsTested ≤
      ((scanTrace C ds).getD j default).endpointsTested ∧
    ((scanTrace C ds).getD i default).progress ≤
      ((scanTrace C ds).getD j default).progress

/-- C1 counterexample: with two crawled pages, the last crawl event reports
`pagesScanned = 2` (the crawl phase stores the pages-found count in that
field) while the first scanning event reports `pagesScanned = 1` — the
counter drops across the crawling→scanning transition. -/
theorem c1_counterexample : ¬c1Claim := by
  intro h
  have := (h 2 [(0, 0, 0), (0, 0, 0)] 2 3 (by omega) (by decide)).1
  exact absurd this (by decide)

/-- C1 amended: along the published event sequence, `vulnerabilitiesFound`,
`formsFound`, `endpointsTested` and `progress` are monotone throughout, and
`pagesScanned` is monotone within the crawling phase and within the scanning
phase — but may drop at the phase transition, where the field switches from
the pages-found count to the pages-scanned count. -/
theorem c1_amended (C : Nat) (ds : List ResultDelta) (i j : Nat)
    (hij : i ≤ j) (hj : j < (scanTrace C ds).length) :
    (((scanTrace C ds).getD i default).vulnerabilitiesFound ≤
       ((scanTrace C ds).getD j default).vulnerabilitiesFound ∧
     ((scanTrace C ds).getD i default).formsFound ≤
       ((scanTrace C ds).getD j default).formsFound ∧
     ((scanTrace C ds).getD i default).endpointsTested ≤
       ((scanTrace C ds).getD j default).endpointsTested ∧
     ((scanTrace C ds).getD i default).progress ≤
       ((scanTrace C ds).getD j default).progress) ∧
    ((j ≤ C ∨ C < i) →
      ((scanTrace C ds).getD i default).pagesScanned ≤
        ((scanTrace C ds).getD j default).pagesScanned) := by
  rw [scanTrace_length] at hj
  by_cases hiC : i ≤ C
  · have hieq : (scanTrace C ds).getD i default =
        (if i = 0 then startScan 0 else crawlSP i) := by
      by_cases h0 : i = 0
      · rw [h0, if_pos rfl, scanTrace_getD_zero]
      · rw [if_neg h0, scanTrace_getD_crawl C ds i (by omega) hiC]
    have hiv : ((scanTrace C ds).getD i default).vulnerabilitiesFound = 0 := by
      rw [hieq]; split <;> rfl
    have hif : ((scanTrace C ds).getD i default).formsFound = 0 := by
      rw [hieq]; split <;> rfl
    have hie : ((scanTrace C ds).getD i default).endpointsTested = 0 := by
      rw [hieq]; split <;> rfl
    have hip : ((scanTrace C ds).getD i default).progress ≤ 30 := by
      rw [hieq]
      split
      · exact Nat.zero_le 30
      · rw [crawlSP_progress i (by omega)]
    have hips : ((scanTrace C ds).getD i default).pagesScanned = i := by
      rw [hieq]
      split
      · simp only [startScan]; omega
      · rfl
    by_cases hjC : j ≤ C
    · have hjeq : (scanTrace C ds).getD j default =
          (if j = 0 then startScan 0 else crawlSP j) := by
        by_cases h0 : j = 0
        · rw [h0, if_pos rfl, scanTrace_getD_zero]
        · rw [if_neg h0, scanTrace_getD_crawl C ds j (by omega) hjC]
      refine ⟨⟨?_, ?_, ?_, ?_⟩, ?_⟩
      · rw [hiv]; exact Nat.zero_le _
      · rw [hif]; exact Nat.zero_le _
      · rw [hie]; exact Nat.zero_le _
      · by_cases h0 : j = 0
        · have hi0 : i = 0 := by omega
          rw [hieq, hjeq, hi0, h0]
        · rw [hjeq, if_neg h0, crawlSP_progress j (by omega)]
          exact hip
      · intro _
        rw [hips, hjeq]
        split
        · omega
        · exact hij
    · have hjm : 1 ≤ j - C ∧ j - C ≤ ds.length := by omega
      have hjeq : (scanTrace C ds).getD j default =
          scanSP C (poolAfter C (ds.take (j - C))) := by
        have hx := scanTrace_getD_scan C ds (j - C) hjm.1 hjm.2
        rw [show C + (j - C) = j from by omega] at hx
        exact hx
      refine ⟨⟨?_, ?_, ?_, ?_⟩, ?_⟩
      · rw [hiv]; exact Nat.zero_le _
      · rw [hif]; exact Nat.zero_le _
      · rw [hie]; exact Nat.zero_le _
      · rw [hjeq]
        exact hip.trans (Nat.le_add_right 30 _)
      · intro hcond
        rcases hcond with hcond | hcond
        · omega
        · omega
  · have him : 1 ≤ i - C ∧ i - C ≤ ds.length := by omega
    have hjm : 1 ≤ j - C ∧ j - C ≤ ds.length := by omega
    have hieq : (scanTrace C ds).getD i default =
        scanSP C (poolAfter C (ds.take (i - C))) := by
      have hx := scanTrace_getD_scan C ds (i - C) him.1 him.2
      rw [show C + (i - C) = i from by omega] at hx
      exact hx
    have hjeq : (scanTrace C ds).getD j default =
        scanSP C (poolAfter C (ds.take (j - C))) := by
      have hx := scanTrace_getD_scan C ds (j - C) hjm.1 hjm.2
      rw [show C + (j - C) = j from by omega] at hx
      exact hx
    obtain ⟨⟨hm1, hm2, hm3, hm4⟩, -⟩ :=
      poolAfter_mono C ds (i - C) (j - C) (by omega)
    rw [hieq, hjeq]
    refine ⟨⟨hm2, hm3, hm4, ?_⟩, fun _ => hm1⟩
    show 30 + jsRoundDiv _ _ ≤ 30 + jsRoundDiv _ _
    exact Nat.add_le_add_left
      (jsRoundDiv_mono _ _ _ (Nat.mul_le_mul_right 70 hm1)) 30

/-- Witness for C1 (amended) at a concrete trace: two crawled pages, one
worker result. -/
theorem c1_amended_witness :
    (((scanTrace 2 [(1, 2, 3)]).getD 1 default).vulnerabilitiesFound ≤
       ((scanTrace 2 [(1, 2, 3)]).getD 3 default).vulnerabilitiesFound ∧
     ((scanTrace 2 [(1, 2, 3)]).getD 1 default).formsFound ≤
       ((scanTrace 2 [(1, 2, 3)]).getD 3 default).formsFound ∧
     ((scanTrace 2 [(1, 2, 3)]).getD 1 default).endpointsTested ≤
       ((scanTrace 2 [(1, 2, 3)]).getD 3 default).endpointsTested ∧
     ((scanTrace 2 [(1, 2, 3)]).getD 1 default).progress ≤
       ((scanTrace 2 [(1, 2, 3)]).getD 3 default).progress) ∧
    ((3 ≤ 2 ∨ 2 < 1) →
      ((scanTrace 2 [(1, 2, 3)]).getD 1 default).pagesScanned ≤
        ((scanTrace 2 [(1, 2, 3)]).getD 3 default).pagesScanned) :=
  c1_amended 2 [(1, 2, 3)] 1 3 (by omega) (by decide)

/-- Witness for C10 at a concrete oracle returning non-string content. -/
theorem c10_witness :
    scanPage (fun _ => .response ⟨200, some "nginx".data, .nonString⟩)
        (fun _ => ⟨[], []⟩) "http://t.example.com/api".data =
      ({ success := true, error := none,
         data := emptyScanData "http://t.example.com/api".data },
       [initReq "http://t.example.com/api".data]) :=
  c10_nonstring_skips_all _ _ _ ⟨200, some "nginx".data, .nonString⟩ rfl rfl

end WikiScan
